import Mathlib

/-!
# Dual watch winder (ESP32): scheduling engine

A shallow embedding of the motion scheduling engine of `src/main.cpp`
(with the constants of `include/config.h`) and the properties proved about it.

Conventions of the embedding.

* The target is a 32-bit ESP32: `unsigned long` values are naturals reduced modulo
  `2^32 = 4294967296`, `long` and `int` values are integers, and a cast
  `(long)x` of an unsigned value is `toLong x` (two's complement).
* The global variables of `main.cpp` are the fields of `State`, with the names
  they have in the source.
* `millis()`, the selector pins, the pending HTTP request and the effect of the
  stepper library's `run()` / `stop()` are inputs of a tick (`TickIn`).
-/

namespace Winder

/-! ## Machine arithmetic -/

/-- Reduction of a natural number to an `unsigned long` (32 bits). -/
def wrapUL (n : Nat) : Nat := n % 4294967296

/-- Unsigned 32-bit subtraction `a - b`. -/
def subUL (a b : Nat) : Nat := (a % 4294967296 + 4294967296 - b % 4294967296) % 4294967296

/-- The cast `(long)x` of an `unsigned long` value (two's complement, 32 bits). -/
def toLong (n : Nat) : Int :=
  if n % 4294967296 < 2147483648 then ((n % 4294967296 : Nat) : Int)
  else ((n % 4294967296 : Nat) : Int) - 4294967296

/-- Reduction of an integer to the range of a 32-bit `long`. -/
def wrapLong (x : Int) : Int := (x + 2147483648) % 4294967296 - 2147483648

/-- Arduino's `constrain(amt, low, high)`. -/
def constrain (amt low high : Int) : Int :=
  if amt < low then low else if amt > high then high else amt

/-! ## Constants of `config.h` -/

/-- `STEPS_PER_REV` of `config.h`. -/
def STEPS_PER_REV : Int := 4096

/-- `MODE_DEBOUNCE_MS` of `config.h`. -/
def MODE_DEBOUNCE_MS : Nat := 40

/-- `DIR_CW` of `enum DirectionPlan`. -/
def DIR_CW : Int := 1

/-- `DIR_CCW` of `enum DirectionPlan`. -/
def DIR_CCW : Int := -1

/-- `DIR_ALT` of `enum DirectionPlan`. -/
def DIR_ALT : Int := 0

/-! ## The motion primitive -/

/-- Modelled from the spec: the motion primitive is the external stepper library
(`AccelStepper`), which the repository only calls. A stepper is represented by its
remaining distance `distanceToGo()` (target minus current position, signed);
`move(relative)` sets the target `relative` steps from the current position, so
that the remaining distance becomes `relative`. The effects of `run()` and
`stop()` are inputs of a tick. -/
structure Stepper where
  distanceToGo : Int
deriving DecidableEq

/-- The call `move(relative)`: afterwards `distanceToGo() = relative`. -/
def Stepper.move (_m : Stepper) (relative : Int) : Stepper := ⟨relative⟩

/-! ## State -/

/-- The global variables of `main.cpp` that the scheduling engine reads or writes. -/
structure State where
  enabled : Bool
  nextDue1 : Nat
  nextDue2 : Nat
  lastDir1 : Int
  lastDir2 : Int
  TPD_M1 : Int
  TPD_M2 : Int
  DIRPLAN_M1 : Int
  DIRPLAN_M2 : Int
  currentMode : Int
  stableMode : Int
  lastModeReadMs : Nat
  turboActive : Bool
  turboEndMs : Nat
  turboM1 : Bool
  turboM2 : Bool
  turboStopping : Bool
  s1 : Stepper
  s2 : Stepper
deriving DecidableEq

/-! ## Scheduler helpers (`main.cpp` lines 30-38) -/

/-- `intervalFromTPD`: `0` for `tpd <= 0`, else `86400000UL / tpd`. -/
def intervalFromTPD (tpd : Int) : Nat :=
  if tpd ≤ 0 then 0 else 86400000 / tpd.toNat

/-- `pickDir(plan, lastDir)`: the pair of the returned direction and the new value
of the reference parameter `lastDir`. -/
def pickDir (plan : Int) (lastDir : Int) : Int × Int :=
  if plan = DIR_CW then (1, 1)
  else if plan = DIR_CCW then (-1, -1)
  else (if lastDir > 0 then (-1, -1) else (1, 1))

/-! ## Mode selector (`main.cpp` lines 41-57) -/

/-- `readModeRaw`: the two pins (`true` is `HIGH`) mapped to a logical position. -/
def readModeRaw (a b : Bool) : Int :=
  if a = false ∧ b = true then 0
  else if a = true ∧ b = true then 1
  else if a = true ∧ b = false then 2
  else 1

/-- `updateModeDebounced`, with the pin levels and the value of `millis()` as inputs. -/
def updateModeDebounced (a b : Bool) (now : Nat) (s : State) : State :=
  let m := readModeRaw a b
  if m ≠ s.currentMode then { s with currentMode := m, lastModeReadMs := now }
  else if subUL now s.lastModeReadMs ≥ MODE_DEBOUNCE_MS then { s with stableMode := m }
  else s

/-- `applyModePreset`. -/
def applyModePreset (mode : Int) (s : State) : State :=
  if mode = 0 then
    { s with TPD_M1 := 500, TPD_M2 := 500, DIRPLAN_M1 := DIR_ALT, DIRPLAN_M2 := DIR_ALT }
  else if mode = 2 then
    { s with TPD_M1 := 800, TPD_M2 := 800, DIRPLAN_M1 := DIR_CW, DIRPLAN_M2 := DIR_CCW }
  else s

/-! ## Turbo (`main.cpp` lines 59-95) -/

/-- `startTurbo(m1, m2, minutes)`, with the value of `millis()` as input `now`.
`span` is computed in `unsigned long` (the `long` factor is converted) and stored
in a `long`. -/
def startTurbo (m1 m2 : Bool) (minutes : Nat) (now : Nat) (s : State) : State :=
  let s := { s with turboM1 := m1, turboM2 := m2, turboActive := true, turboStopping := false }
  let s := { s with turboEndMs := wrapUL (now + wrapUL (wrapUL (minutes * 60) * 1000)) }
  let span : Int := toLong (wrapUL ((6 * STEPS_PER_REV).toNat * minutes))
  let s := if s.turboM1 then { s with s1 := s.s1.move (wrapLong (s.s1.distanceToGo + span)) } else s
  let s := if s.turboM2 then { s with s2 := s.s2.move (wrapLong (s.s2.distanceToGo + span)) } else s
  s

/-- `updateTurbo`, with the value of `millis()` as input `now`. -/
def updateTurbo (now : Nat) (s : State) : State :=
  if !s.turboActive then s
  else
    let s := if now ≥ s.turboEndMs ∧ !s.turboStopping then { s with turboStopping := true } else s
    if s.turboStopping then
      let m1Done := !s.turboM1 || decide (s.s1.distanceToGo = 0)
      let m2Done := !s.turboM2 || decide (s.s2.distanceToGo = 0)
      if m1Done && m2Done then
        { s with turboActive := false, turboM1 := false, turboM2 := false, turboStopping := false }
      else s
    else
      let s := if s.turboM1 ∧ s.s1.distanceToGo = 0 then
          { s with s1 := s.s1.move (2 * STEPS_PER_REV) } else s
      let s := if s.turboM2 ∧ s.s2.distanceToGo = 0 then
          { s with s2 := s.s2.move (2 * STEPS_PER_REV) } else s
      s

/-! ## HTTP entry points (`main.cpp` lines 472-499) -/

/-- The JSON body of `POST /config`; a field is `none` when it is absent from the
document (the handler then keeps the current value). -/
structure ConfigBody where
  tpd1 : Option Int
  tpd2 : Option Int
  dir1 : Option Int
  dir2 : Option Int

/-- The JSON body of `POST /turbo`. -/
structure TurboBody where
  m1 : Option Bool
  m2 : Option Bool
  min : Option Int

/-- The request served by `server.handleClient()` in a tick, as far as it can
touch the scheduler state. A body of `none` is a missing or unparsable body. -/
inductive Request where
  | idle
  | start
  | stop
  | config (body : Option ConfigBody)
  | turbo (body : Option TurboBody)

/-- The `/config` handler, with the value of `millis()` as input `now`. -/
def handleConfig (body : Option ConfigBody) (now : Nat) (s : State) : State :=
  match body with
  | none => s
  | some doc =>
    let t1 := doc.tpd1.getD s.TPD_M1
    let t2 := doc.tpd2.getD s.TPD_M2
    let d1 := doc.dir1.getD s.DIRPLAN_M1
    let d2 := doc.dir2.getD s.DIRPLAN_M2
    let t1 := constrain t1 0 1200
    let t2 := constrain t2 0 1200
    let d1 := if ¬ (d1 = -1 ∨ d1 = 0 ∨ d1 = 1) then 0 else d1
    let d2 := if ¬ (d2 = -1 ∨ d2 = 0 ∨ d2 = 1) then 0 else d2
    let s := { s with TPD_M1 := t1, TPD_M2 := t2, DIRPLAN_M1 := d1, DIRPLAN_M2 := d2 }
    let s := { s with nextDue1 :=
      if s.TPD_M1 > 0 then wrapUL (now + intervalFromTPD s.TPD_M1) else 0 }
    let s := { s with nextDue2 :=
      if s.TPD_M2 > 0 then wrapUL (now + intervalFromTPD s.TPD_M2) else 0 }
    s

/-- The `/turbo` handler, with the value of `millis()` as input `now`. -/
def handleTurbo (body : Option TurboBody) (now : Nat) (s : State) : State :=
  match body with
  | none => s
  | some doc =>
    let m1 := doc.m1.getD false
    let m2 := doc.m2.getD false
    let minutes := constrain (doc.min.getD 5) 1 15
    startTurbo m1 m2 minutes.toNat now s

/-- The effect of `server.handleClient()` on the scheduler state. -/
def handleClient (req : Request) (now : Nat) (s : State) : State :=
  match req with
  | Request.idle => s
  | Request.start => { s with enabled := true }
  | Request.stop => { s with enabled := false }
  | Request.config body => handleConfig body now s
  | Request.turbo body => handleTurbo body now s

/-! ## Status query (`main.cpp` lines 445-470) -/

/-- The fields of the JSON document the `/status` handler sends, the opaque
network descriptor apart. -/
structure Status where
  enabled : Bool
  switch_mode : Int
  tpd1 : Int
  tpd2 : Int
  dir1 : Int
  dir2 : Int
  next1_ms : Int
  next2_ms : Int
  turbo_active : Bool
  turbo_m1 : Bool
  turbo_m2 : Bool
  turbo_left_ms : Int
deriving DecidableEq

/-- The `/status` handler, with the values of its two `millis()` calls as inputs
(`tNow` for `long now`, `tTurbo` in the computation of `tleft`). The subtractions
are in `long`. -/
def handleStatus (tNow tTurbo : Nat) (s : State) : Status :=
  let now : Int := toLong tNow
  let rem1 : Int :=
    if s.TPD_M1 > 0 ∧ s.nextDue1 > 0 then wrapLong (toLong s.nextDue1 - now) else -1
  let rem1 : Int := if rem1 < 0 ∧ rem1 ≠ -1 then 0 else rem1
  let rem2 : Int :=
    if s.TPD_M2 > 0 ∧ s.nextDue2 > 0 then wrapLong (toLong s.nextDue2 - now) else -1
  let rem2 : Int := if rem2 < 0 ∧ rem2 ≠ -1 then 0 else rem2
  let tleft : Int :=
    if s.turboActive then wrapLong (toLong s.turboEndMs - toLong tTurbo) else 0
  let tleft : Int := if tleft < 0 then 0 else tleft
  { enabled := s.enabled, switch_mode := s.stableMode,
    tpd1 := s.TPD_M1, tpd2 := s.TPD_M2, dir1 := s.DIRPLAN_M1, dir2 := s.DIRPLAN_M2,
    next1_ms := rem1, next2_ms := rem2,
    turbo_active := s.turboActive, turbo_m1 := s.turboM1, turbo_m2 := s.turboM2,
    turbo_left_ms := tleft }

/-! ## The scheduling tick (`main.cpp` lines 559-593) -/

/-- The inputs of one call of `loop()`: the request served by `handleClient`, the
levels of the selector pins, the values returned by the calls of `millis()` (in
the request handler, in `updateModeDebounced`, in `updateTurbo` and in `loop`
itself), and the effect of the stepper library's `run()` and `stop()` on each
motor. -/
structure TickIn where
  req : Request
  tReq : Nat
  pinA : Bool
  pinB : Bool
  tMode : Nat
  tTurbo : Nat
  now : Nat
  run1 : Stepper → Stepper
  run2 : Stepper → Stepper
  stop1 : Stepper → Stepper
  stop2 : Stepper → Stepper

/-- Lines 562-563 of `loop`: debounce, then the preset overlay. -/
def modeStep (a b : Bool) (now : Nat) (s : State) : State :=
  let s := updateModeDebounced a b now s
  if s.stableMode ≠ 1 then applyModePreset s.stableMode s else s

/-- Lines 580-585 of `loop`: the scheduling block of channel 1. -/
def schedule1 (now : Nat) (s : State) : State :=
  if !s.turboActive ∧ s.TPD_M1 > 0 ∧ s.nextDue1 > 0 ∧ now ≥ s.nextDue1
      ∧ s.s1.distanceToGo = 0 then
    let p := pickDir s.DIRPLAN_M1 s.lastDir1
    let s := { s with lastDir1 := p.2 }
    let s := { s with s1 := s.s1.move (p.1 * STEPS_PER_REV) }
    let s := { s with nextDue1 := wrapUL (s.nextDue1 + intervalFromTPD s.TPD_M1) }
    if toLong (subUL s.nextDue1 now) > toLong (wrapUL (2 * intervalFromTPD s.TPD_M1)) then
      { s with nextDue1 := wrapUL (now + intervalFromTPD s.TPD_M1) }
    else s
  else s

/-- Lines 586-591 of `loop`: the scheduling block of channel 2. -/
def schedule2 (now : Nat) (s : State) : State :=
  if !s.turboActive ∧ s.TPD_M2 > 0 ∧ s.nextDue2 > 0 ∧ now ≥ s.nextDue2
      ∧ s.s2.distanceToGo = 0 then
    let p := pickDir s.DIRPLAN_M2 s.lastDir2
    let s := { s with lastDir2 := p.2 }
    let s := { s with s2 := s.s2.move (p.1 * STEPS_PER_REV) }
    let s := { s with nextDue2 := wrapUL (s.nextDue2 + intervalFromTPD s.TPD_M2) }
    if toLong (subUL s.nextDue2 now) > toLong (wrapUL (2 * intervalFromTPD s.TPD_M2)) then
      { s with nextDue2 := wrapUL (now + intervalFromTPD s.TPD_M2) }
    else s
  else s

/-- Lines 579-591 of `loop`: the scheduling step, both channels. -/
def schedule (now : Nat) (s : State) : State :=
  schedule2 now (schedule1 now s)

/-- Lines 560-577 of `loop` up to the `enabled` test: the request, the mode step
and the turbo state machine. -/
def preTick (e : TickIn) (s : State) : State :=
  let s := handleClient e.req e.tReq s
  let s := modeStep e.pinA e.pinB e.tMode s
  updateTurbo e.tTurbo s

/-- Line 577 of `loop`: both motors are serviced (`s1.run(); s2.run();`). -/
def service (e : TickIn) (s : State) : State :=
  { s with s1 := e.run1 s.s1, s2 := e.run2 s.s2 }

/-- Lines 567-574 of `loop`: the disabled branch. -/
def haltStep (e : TickIn) (s : State) : State :=
  let s := if s.s1.distanceToGo ≠ 0 then { s with s1 := e.stop1 s.s1 } else s
  let s := if s.s2.distanceToGo ≠ 0 then { s with s2 := e.stop2 s.s2 } else s
  service e s

/-- The state on which the scheduling step of an enabled tick operates: after
the request, the mode step, the turbo state machine and the motor service. -/
def atSchedule (e : TickIn) (s : State) : State :=
  service e (preTick e s)

/-- One call of `loop()`. -/
def loop (e : TickIn) (s : State) : State :=
  let a := preTick e s
  if !a.enabled then haltStep e a
  else schedule e.now (service e a)

/-- The due time a firing scheduling block leaves (lines 583-584 and 589-590 of
`loop`): the due time advanced by the interval or, when the block's clamp test
`(long)(nextDue-now) > (long)(2*interval)` holds for it, `now + interval`. -/
def advancedDue (now due interval : Nat) : Nat :=
  if toLong (subUL (wrapUL (due + interval)) now) > toLong (wrapUL (2 * interval))
  then wrapUL (now + interval)
  else wrapUL (due + interval)

/-- A run of `loop()` calls, one per element of the input list. -/
def runTicks (s : State) : List TickIn → State
  | [] => s
  | e :: es => runTicks (loop e s) es

/-! ## Per-channel views of the state -/

/-- The two channels. -/
inductive Channel where
  | one
  | two
deriving DecidableEq

/-- The `TPD_M1` / `TPD_M2` of a channel. -/
def State.tpd (s : State) : Channel → Int
  | .one => s.TPD_M1
  | .two => s.TPD_M2

/-- The `DIRPLAN_M1` / `DIRPLAN_M2` of a channel. -/
def State.plan (s : State) : Channel → Int
  | .one => s.DIRPLAN_M1
  | .two => s.DIRPLAN_M2

/-- The `lastDir1` / `lastDir2` of a channel. -/
def State.lastDir (s : State) : Channel → Int
  | .one => s.lastDir1
  | .two => s.lastDir2

/-- The `nextDue1` / `nextDue2` of a channel. -/
def State.nextDue (s : State) : Channel → Nat
  | .one => s.nextDue1
  | .two => s.nextDue2

/-- The stepper `s1` / `s2` of a channel. -/
def State.motor (s : State) : Channel → Stepper
  | .one => s.s1
  | .two => s.s2

/-- The flag `turboM1` / `turboM2` of a channel. -/
def State.turboSel (s : State) : Channel → Bool
  | .one => s.turboM1
  | .two => s.turboM2

/-- The guard of a channel's scheduling block (lines 580 and 586 of `loop`). -/
def State.due (s : State) (now : Nat) (c : Channel) : Prop :=
  s.turboActive = false ∧ s.tpd c > 0 ∧ s.nextDue c > 0 ∧ now ≥ s.nextDue c
    ∧ (s.motor c).distanceToGo = 0

instance (s : State) (now : Nat) (c : Channel) : Decidable (s.due now c) := by
  unfold State.due; infer_instance

/-! ## Observations over runs of ticks -/

/-- The number of scheduled rotations a run of ticks issues on a channel: the
ticks that are enabled and on which the guard of the channel's scheduling block
holds. -/
def firings (c : Channel) (s : State) : List TickIn → Nat
  | [] => 0
  | e :: es =>
    (if (atSchedule e s).enabled = true ∧ (atSchedule e s).due e.now c then 1 else 0)
      + firings c (loop e s) es

/-- A run that leaves a channel's schedule uninterrupted: on every tick the
channel has the given `tpd` at the scheduling step, the request served has not
re-derived its due time, and the tick comes at most three intervals after the
due time. -/
def uninterrupted (c : Channel) (tpd : Int) (s : State) : List TickIn → Prop
  | [] => True
  | e :: es =>
    (atSchedule e s).tpd c = tpd ∧ (atSchedule e s).nextDue c = s.nextDue c
      ∧ e.now < 4294967296 ∧ e.now - s.nextDue c ≤ 3 * (86400000 / tpd.toNat)
      ∧ uninterrupted c tpd (loop e s) es

/-- The directions of the scheduled rotations a run of ticks issues on a channel,
in the order of issue: the results of `pickDir` on the ticks that are enabled and
on which the guard of the channel's scheduling block holds. -/
def issuedDirs (c : Channel) (s : State) : List TickIn → List Int
  | [] => []
  | e :: es =>
    if (atSchedule e s).enabled = true ∧ (atSchedule e s).due e.now c then
      (pickDir ((atSchedule e s).plan c) ((atSchedule e s).lastDir c)).1
        :: issuedDirs c (loop e s) es
    else issuedDirs c (loop e s) es

/-- The channel's direction plan has the given value at the scheduling step of
every tick of the run. -/
def planStays (c : Channel) (plan : Int) (s : State) : List TickIn → Prop
  | [] => True
  | e :: es => (atSchedule e s).plan c = plan ∧ planStays c plan (loop e s) es

/-- A run of `updateModeDebounced` calls, one per reading: the levels of the two
pins and the value of `millis()`. -/
def debounceRun (s : State) : List (Bool × Bool × Nat) → State
  | [] => s
  | r :: rs => debounceRun (updateModeDebounced r.1 r.2.1 r.2.2 s) rs

/-- The field `next1_ms` / `next2_ms` of a channel in a status document. -/
def Status.next_ms (r : Status) : Channel → Int
  | .one => r.next1_ms
  | .two => r.next2_ms

/-- Whether the request served in a tick rewrites the due times: only a `/config`
request with a parsable body does (lines 485-487). -/
def Request.rederives : Request → Bool
  | .config (some _) => true
  | _ => false

/-- A run of ticks on each of which scheduling is suspended: the request served
does not rewrite the due times, and the scheduling step of the tick is skipped
(`enabled = false`) or finds turbo active. -/
def suspended (s : State) : List TickIn → Prop
  | [] => True
  | e :: es =>
    e.req.rederives = false
      ∧ ((atSchedule e s).enabled = false ∨ (atSchedule e s).turboActive = true)
      ∧ suspended (loop e s) es

/-! ## Concrete states and ticks -/

/-- The state after a boot at time `0` with the defaults of `config.h`
(`tpd` 650 on both channels, Alternate) and the selector in the manual position. -/
def bootState : State :=
  { enabled := true, nextDue1 := 132923, nextDue2 := 132923, lastDir1 := 1, lastDir2 := 1,
    TPD_M1 := 650, TPD_M2 := 650, DIRPLAN_M1 := DIR_ALT, DIRPLAN_M2 := DIR_ALT,
    currentMode := 1, stableMode := 1, lastModeReadMs := 0,
    turboActive := false, turboEndMs := 0, turboM1 := false, turboM2 := false,
    turboStopping := false, s1 := ⟨0⟩, s2 := ⟨0⟩ }

/-- A tick at time `t` with no request, the selector in the manual position and
motors that are at rest (`run()` and `stop()` leave the remaining distance). -/
def quietTick (t : Nat) : TickIn :=
  { req := Request.idle, tReq := t, pinA := true, pinB := true, tMode := t, tTurbo := t,
    now := t, run1 := id, run2 := id, stop1 := id, stop2 := id }

/-- A tick at time `t` with no request and the selector in the manual position,
on which `run()` completes whatever distance remains on both motors. -/
def finishTick (t : Nat) : TickIn :=
  { req := Request.idle, tReq := t, pinA := true, pinB := true, tMode := t, tTurbo := t,
    now := t, run1 := fun _ => ⟨0⟩, run2 := fun _ => ⟨0⟩, stop1 := id, stop2 := id }

/-- The boot state after `startTurbo(true, false, 5)` at time `0`: turbo on
channel 1 only. -/
def turboOnOne : State := startTurbo true false 5 0 bootState

/-- The boot state with a counter-clockwise rotation in flight on channel 1
(`100` steps remain) and `lastDir1 = -1`. -/
def ccwState : State :=
  { bootState with s1 := ⟨-100⟩, lastDir1 := -1 }

/-- Turbo active on channel 1 (not stopping, end time `300000`), channel 1 idle
after a counter-clockwise rotation (`lastDir1 = -1`). -/
def ccwTurboState : State :=
  { bootState with turboActive := true, turboM1 := true, turboEndMs := 300000, lastDir1 := -1 }

/-- Turbo active on both channels with end time `300000`; channel 1 still has
`500` steps to go, channel 2 is idle. -/
def turboBoth : State :=
  { bootState with turboActive := true, turboM1 := true, turboM2 := true,
                   turboEndMs := 300000, s1 := ⟨500⟩ }

/-- The boot state with `tpd` 0 and no due time on channel 1. -/
def offState : State :=
  { bootState with TPD_M1 := 0, nextDue1 := 0 }

/-- The boot state with the selector in preset position 0 and the preset applied
(`tpd` 500 on both channels); the due times are those derived at boot. -/
def presetState : State :=
  { bootState with currentMode := 0, stableMode := 0, TPD_M1 := 500, TPD_M2 := 500 }

/-- A tick at time `t` with the selector in preset position 0 that serves a
`/config` request with the given `tpd1` and `tpd2 = 1000`, directions CW. -/
def presetConfigTick (t : Nat) (tpd1 : Int) : TickIn :=
  { req := Request.config (some ⟨some tpd1, some 1000, some 1, some 1⟩), tReq := t,
    pinA := false, pinB := true, tMode := t, tTurbo := t,
    now := t, run1 := id, run2 := id, stop1 := id, stop2 := id }

/-- A tick at time `t` with no request and the selector in preset position 0. -/
def presetTick (t : Nat) : TickIn :=
  { req := Request.idle, tReq := t, pinA := false, pinB := true, tMode := t, tTurbo := t,
    now := t, run1 := id, run2 := id, stop1 := id, stop2 := id }

/-- A tick at time `t` with the selector in the manual position that serves a
`/config` request with `tpd1 = 1000`, `tpd2 = 0` and directions CW, CCW. -/
def manualConfigTick (t : Nat) : TickIn :=
  { req := Request.config (some ⟨some 1000, some 0, some 1, some (-1)⟩), tReq := t,
    pinA := true, pinB := true, tMode := t, tTurbo := t,
    now := t, run1 := id, run2 := id, stop1 := id, stop2 := id }

/-- The boot state with scheduling disabled. -/
def stoppedState : State :=
  { bootState with enabled := false }

/-! # Properties -/

/-! ## Lemmas on the scheduling step -/

theorem schedule1_fire (now : Nat) (a : State) (h : a.due now .one) :
    schedule1 now a =
      { a with
        lastDir1 := (pickDir a.DIRPLAN_M1 a.lastDir1).2
        s1 := ⟨(pickDir a.DIRPLAN_M1 a.lastDir1).1 * STEPS_PER_REV⟩
        nextDue1 :=
          if toLong (subUL (wrapUL (a.nextDue1 + intervalFromTPD a.TPD_M1)) now)
              > toLong (wrapUL (2 * intervalFromTPD a.TPD_M1))
          then wrapUL (now + intervalFromTPD a.TPD_M1)
          else wrapUL (a.nextDue1 + intervalFromTPD a.TPD_M1) } := by
  obtain ⟨h1, h2, h3, h4, h5⟩ := h
  simp only [State.tpd, State.nextDue, State.motor] at h2 h3 h4 h5
  unfold schedule1
  rw [if_pos ⟨by simp [h1], h2, h3, h4, h5⟩]
  simp only [Stepper.move]
  split_ifs <;> rfl

theorem schedule1_skip (now : Nat) (a : State) (h : ¬ a.due now .one) :
    schedule1 now a = a := by
  unfold schedule1
  rw [if_neg]
  intro h'
  apply h
  obtain ⟨h1, h2, h3, h4, h5⟩ := h'
  exact ⟨by simpa using h1, h2, h3, h4, h5⟩

theorem schedule2_fire (now : Nat) (a : State) (h : a.due now .two) :
    schedule2 now a =
      { a with
        lastDir2 := (pickDir a.DIRPLAN_M2 a.lastDir2).2
        s2 := ⟨(pickDir a.DIRPLAN_M2 a.lastDir2).1 * STEPS_PER_REV⟩
        nextDue2 :=
          if toLong (subUL (wrapUL (a.nextDue2 + intervalFromTPD a.TPD_M2)) now)
              > toLong (wrapUL (2 * intervalFromTPD a.TPD_M2))
          then wrapUL (now + intervalFromTPD a.TPD_M2)
          else wrapUL (a.nextDue2 + intervalFromTPD a.TPD_M2) } := by
  obtain ⟨h1, h2, h3, h4, h5⟩ := h
  simp only [State.tpd, State.nextDue, State.motor] at h2 h3 h4 h5
  unfold schedule2
  rw [if_pos ⟨by simp [h1], h2, h3, h4, h5⟩]
  simp only [Stepper.move]
  split_ifs <;> rfl

theorem schedule2_skip (now : Nat) (a : State) (h : ¬ a.due now .two) :
    schedule2 now a = a := by
  unfold schedule2
  rw [if_neg]
  intro h'
  apply h
  obtain ⟨h1, h2, h3, h4, h5⟩ := h'
  exact ⟨by simpa using h1, h2, h3, h4, h5⟩

theorem schedule1_due_two (now : Nat) (a : State) :
    (schedule1 now a).due now .two ↔ a.due now .two := by
  by_cases h : a.due now .one
  · rw [schedule1_fire now a h]; exact Iff.rfl
  · rw [schedule1_skip now a h]

theorem schedule_view (c : Channel) (now : Nat) (a : State) :
    (schedule now a).motor c =
        (if a.due now c then ⟨(pickDir (a.plan c) (a.lastDir c)).1 * STEPS_PER_REV⟩
         else a.motor c)
    ∧ (schedule now a).lastDir c =
        (if a.due now c then (pickDir (a.plan c) (a.lastDir c)).2 else a.lastDir c)
    ∧ (schedule now a).nextDue c =
        (if a.due now c then advancedDue now (a.nextDue c) (intervalFromTPD (a.tpd c))
         else a.nextDue c)
    ∧ (schedule now a).tpd c = a.tpd c
    ∧ (schedule now a).plan c = a.plan c := by
  have h12 := schedule1_due_two now a
  by_cases h1 : a.due now .one <;> by_cases h2 : a.due now .two
  all_goals
    have h2' := h2
    rw [← h12] at h2'
    unfold schedule
    first
      | rw [schedule2_fire now _ h2']
      | rw [schedule2_skip now _ h2']
    first
      | rw [schedule1_fire now a h1]
      | rw [schedule1_skip now a h1]
    cases c <;>
      simp [State.motor, State.lastDir, State.nextDue, State.tpd, State.plan, h1, h2,
        advancedDue]

theorem schedule_frame (now : Nat) (a : State) :
    (schedule now a).enabled = a.enabled
    ∧ (schedule now a).turboActive = a.turboActive
    ∧ (schedule now a).turboStopping = a.turboStopping
    ∧ (schedule now a).turboM1 = a.turboM1
    ∧ (schedule now a).turboM2 = a.turboM2
    ∧ (schedule now a).turboEndMs = a.turboEndMs
    ∧ (schedule now a).stableMode = a.stableMode
    ∧ (schedule now a).currentMode = a.currentMode
    ∧ (schedule now a).lastModeReadMs = a.lastModeReadMs := by
  have h12 := schedule1_due_two now a
  by_cases h1 : a.due now .one <;> by_cases h2 : a.due now .two
  all_goals
    have h2' := h2
    rw [← h12] at h2'
    unfold schedule
    first
      | rw [schedule2_fire now _ h2']
      | rw [schedule2_skip now _ h2']
    first
      | rw [schedule1_fire now a h1]
      | rw [schedule1_skip now a h1]
    simp

theorem intervalFromTPD_pos (tpd : Int) (h1 : 1 ≤ tpd) :
    intervalFromTPD tpd = 86400000 / tpd.toNat ∧ intervalFromTPD tpd ≤ 86400000 := by
  unfold intervalFromTPD
  rw [if_neg (by omega)]
  exact ⟨rfl, Nat.div_le_self _ _⟩

theorem intervalFromTPD_ge (tpd : Int) (h1 : 1 ≤ tpd) (h2 : tpd ≤ 1200) :
    72000 ≤ intervalFromTPD tpd := by
  unfold intervalFromTPD
  rw [if_neg (by omega)]
  have h : tpd.toNat ≤ 1200 := by omega
  have hp : 0 < tpd.toNat := by omega
  rw [Nat.le_div_iff_mul_le hp]
  nlinarith

theorem advancedDue_no_clamp (now due iv : Nat) (hnow : now < 4294967296)
    (hdue : due ≤ now) (hiv : iv ≤ 86400000) (hlag : now - due ≤ 2147483648) :
    advancedDue now due iv = wrapUL (due + iv) := by
  unfold advancedDue
  rw [if_neg]
  unfold toLong subUL wrapUL
  split_ifs <;> omega

theorem advancedDue_clamp (now due iv : Nat) (hnow : now < 4294967296)
    (hdue : due ≤ now) (hiv : iv ≤ 86400000) (hlag : 2147483648 + iv < now - due)
    (hlag2 : now - due + iv < 4294967296) :
    advancedDue now due iv = wrapUL (now + iv) := by
  unfold advancedDue
  rw [if_pos]
  unfold toLong subUL wrapUL
  split_ifs <;> omega

/-! ## Lemmas on the tick -/

theorem loop_enabled (e : TickIn) (s : State) (h : (atSchedule e s).enabled = true) :
    loop e s = schedule e.now (atSchedule e s) := by
  have h' : (preTick e s).enabled = true := h
  simp [loop, atSchedule, h']

theorem loop_disabled (e : TickIn) (s : State) (h : (atSchedule e s).enabled = false) :
    loop e s = haltStep e (preTick e s) := by
  have h' : (preTick e s).enabled = false := h
  simp [loop, h']

theorem haltStep_frame (c : Channel) (e : TickIn) (a : State) :
    (haltStep e a).nextDue c = a.nextDue c ∧ (haltStep e a).lastDir c = a.lastDir c
    ∧ (haltStep e a).tpd c = a.tpd c ∧ (haltStep e a).plan c = a.plan c := by
  unfold haltStep service
  cases c <;> simp only [State.nextDue, State.lastDir, State.tpd, State.plan] <;>
    split_ifs <;> simp

theorem service_frame (c : Channel) (e : TickIn) (a : State) :
    (service e a).nextDue c = a.nextDue c ∧ (service e a).lastDir c = a.lastDir c
    ∧ (service e a).tpd c = a.tpd c ∧ (service e a).plan c = a.plan c := by
  unfold service
  cases c <;> simp [State.nextDue, State.lastDir, State.tpd, State.plan]

/-- The view of one tick on a channel's schedule. -/
theorem loop_view (c : Channel) (e : TickIn) (s : State) :
    (loop e s).nextDue c =
        (if (atSchedule e s).enabled = true ∧ (atSchedule e s).due e.now c
         then advancedDue e.now ((atSchedule e s).nextDue c)
                (intervalFromTPD ((atSchedule e s).tpd c))
         else (atSchedule e s).nextDue c)
    ∧ (loop e s).lastDir c =
        (if (atSchedule e s).enabled = true ∧ (atSchedule e s).due e.now c
         then (pickDir ((atSchedule e s).plan c) ((atSchedule e s).lastDir c)).2
         else (atSchedule e s).lastDir c)
    ∧ (loop e s).tpd c = (atSchedule e s).tpd c
    ∧ (loop e s).plan c = (atSchedule e s).plan c := by
  cases hen : (atSchedule e s).enabled
  · rw [loop_disabled e s hen]
    have h := haltStep_frame c e (preTick e s)
    have h' := service_frame c e (preTick e s)
    simp only [atSchedule]
    simp [h, h']
  · rw [loop_enabled e s hen]
    have h := schedule_view c e.now (atSchedule e s)
    simp [h]

theorem wrapUL_add_wrapUL (x y : Nat) : wrapUL (wrapUL x + y) = wrapUL (x + y) := by
  unfold wrapUL; omega

theorem pickDir_cases (plan lastDir : Int) :
    (pickDir plan lastDir).2 = (pickDir plan lastDir).1
    ∧ ((pickDir plan lastDir).1 = 1 ∨ (pickDir plan lastDir).1 = -1)
    ∧ (plan = DIR_CW → (pickDir plan lastDir).1 = 1)
    ∧ (plan = DIR_CCW → (pickDir plan lastDir).1 = -1)
    ∧ (plan ≠ DIR_CW → plan ≠ DIR_CCW →
        (pickDir plan lastDir).1 = if lastDir > 0 then -1 else 1) := by
  unfold pickDir DIR_CW DIR_CCW
  split_ifs <;> simp_all

theorem advancedDue_lt (now due iv : Nat) : advancedDue now due iv < 4294967296 := by
  unfold advancedDue wrapUL
  split_ifs <;> omega

/-- The due time of an uninterrupted channel after a run of ticks. -/
theorem uninterrupted_due (c : Channel) (tpd : Int) (h1 : 1 ≤ tpd) (es : List TickIn) :
    ∀ s : State, s.nextDue c < 4294967296 → uninterrupted c tpd s es →
      (runTicks s es).nextDue c
        = wrapUL (s.nextDue c + firings c s es * (86400000 / tpd.toNat)) := by
  induction es with
  | nil =>
    intro s hs _
    simp only [runTicks, firings, Nat.zero_mul, Nat.add_zero]
    unfold wrapUL; omega
  | cons e es ih =>
    intro s hs h
    obtain ⟨ht, hd, hnow, hlag, hrest⟩ := h
    have hiv := intervalFromTPD_pos tpd h1
    have hv := (loop_view c e s).1
    have hlt : (loop e s).nextDue c < 4294967296 := by
      rw [hv]; split_ifs
      · exact advancedDue_lt _ _ _
      · rw [hd]; exact hs
    simp only [runTicks, firings]
    rw [ih (loop e s) hlt hrest, hv]
    split_ifs with hf
    · have hle : s.nextDue c ≤ e.now := by
        have := hf.2.2.2.2.1; rw [hd] at this; exact this
      have hb : 86400000 / tpd.toNat ≤ 86400000 := Nat.div_le_self _ _
      rw [ht, hd, advancedDue_no_clamp e.now (s.nextDue c) _ hnow hle hiv.2 (by omega)]
      rw [wrapUL_add_wrapUL, hiv.1]
      congr 1; ring
    · rw [hd]; simp

/-- C1 (amended). Scheduled rotation step. For each channel and every tick of
`loop()` whose scheduling step finds `enabled = true`, turbo inactive, `tpd` in
`1..1200`, a pending due time (`nextDue > 0`), `now >= nextDue` and zero remaining
distance on the channel's motor: the tick queues exactly one move of `dir * 4096`
steps and records `dir` in `lastDirection`, where `dir` is the result of `pickDir`:
`+1` for CW, `-1` for CCW and for Alternate `-1` if `lastDirection > 0` and `+1` if
not, that is the negation of a `lastDirection` in `{+1, -1}`; and `nextDue` becomes
`nextDue + intervalMs` on the 32-bit clock, with `intervalMs = 86_400_000 / tpd`
(132,923 for `tpd = 650`), unless the clamp test of the same block holds for the
advanced due time, in which case it becomes `now + intervalMs`. The clamp test
fails whenever the tick comes at most three intervals after the due time, so the
due time of a channel whose schedule is uninterrupted is `t0 + k * intervalMs`
(modulo `2^32`) after `k` issued rotations. -/
theorem scheduled_rotation_step :
    (∀ (c : Channel) (e : TickIn) (s : State),
      (atSchedule e s).enabled = true → (atSchedule e s).turboActive = false →
      1 ≤ (atSchedule e s).tpd c → (atSchedule e s).tpd c ≤ 1200 →
      0 < (atSchedule e s).nextDue c → (atSchedule e s).nextDue c ≤ e.now →
      e.now < 4294967296 → ((atSchedule e s).motor c).distanceToGo = 0 →
        ((loop e s).motor c).distanceToGo
            = (pickDir ((atSchedule e s).plan c) ((atSchedule e s).lastDir c)).1 * 4096
        ∧ (loop e s).lastDir c
            = (pickDir ((atSchedule e s).plan c) ((atSchedule e s).lastDir c)).1
        ∧ ((atSchedule e s).plan c = DIR_CW →
            (pickDir ((atSchedule e s).plan c) ((atSchedule e s).lastDir c)).1 = 1)
        ∧ ((atSchedule e s).plan c = DIR_CCW →
            (pickDir ((atSchedule e s).plan c) ((atSchedule e s).lastDir c)).1 = -1)
        ∧ ((atSchedule e s).plan c = DIR_ALT →
            (pickDir ((atSchedule e s).plan c) ((atSchedule e s).lastDir c)).1
              = (if (atSchedule e s).lastDir c > 0 then -1 else 1))
        ∧ ((atSchedule e s).plan c = DIR_ALT →
            ((atSchedule e s).lastDir c = 1 ∨ (atSchedule e s).lastDir c = -1) →
            (pickDir ((atSchedule e s).plan c) ((atSchedule e s).lastDir c)).1
              = - (atSchedule e s).lastDir c)
        ∧ intervalFromTPD ((atSchedule e s).tpd c)
            = 86400000 / ((atSchedule e s).tpd c).toNat
        ∧ ((atSchedule e s).tpd c = 650 →
            intervalFromTPD ((atSchedule e s).tpd c) = 132923)
        ∧ (loop e s).nextDue c =
            (if toLong (subUL (((atSchedule e s).nextDue c
                    + intervalFromTPD ((atSchedule e s).tpd c)) % 4294967296) e.now)
                > toLong ((2 * intervalFromTPD ((atSchedule e s).tpd c)) % 4294967296)
             then (e.now + intervalFromTPD ((atSchedule e s).tpd c)) % 4294967296
             else ((atSchedule e s).nextDue c
                    + intervalFromTPD ((atSchedule e s).tpd c)) % 4294967296)
        ∧ (e.now ≤ (atSchedule e s).nextDue c
              + 3 * intervalFromTPD ((atSchedule e s).tpd c) →
            (loop e s).nextDue c
              = ((atSchedule e s).nextDue c
                    + intervalFromTPD ((atSchedule e s).tpd c)) % 4294967296))
    ∧ (∀ (c : Channel) (tpd : Int) (s : State) (es : List TickIn),
        1 ≤ tpd → tpd ≤ 1200 → s.nextDue c < 4294967296 → uninterrupted c tpd s es →
          (runTicks s es).nextDue c
            = (s.nextDue c + firings c s es * (86400000 / tpd.toNat)) % 4294967296) := by
  refine ⟨?_, ?_⟩
  · intro c e s hen hturbo h1 h2 hdue hnow hclk hidle
    have hd : (atSchedule e s).due e.now c := ⟨hturbo, h1, hdue, hnow, hidle⟩
    have hl : loop e s = schedule e.now (atSchedule e s) := loop_enabled e s hen
    obtain ⟨v1, v2, v3, -, -⟩ := schedule_view c e.now (atSchedule e s)
    rw [if_pos hd] at v1 v2 v3
    obtain ⟨p1, p2, p3, p4, p5⟩ :=
      pickDir_cases ((atSchedule e s).plan c) ((atSchedule e s).lastDir c)
    obtain ⟨i1, i2⟩ := intervalFromTPD_pos _ h1
    rw [hl, v1, v2, v3, p1]
    refine ⟨rfl, rfl, p3, p4, ?_, ?_, i1, ?_, rfl, ?_⟩
    · intro hp
      exact p5 (by rw [hp]; decide) (by rw [hp]; decide)
    · intro hp hl
      rw [p5 (by rw [hp]; decide) (by rw [hp]; decide)]
      rcases hl with hl | hl <;> rw [hl] <;> decide
    · intro ht; rw [ht]; decide
    · intro hlag
      have := advancedDue_no_clamp e.now ((atSchedule e s).nextDue c)
        (intervalFromTPD ((atSchedule e s).tpd c)) hclk hnow i2 (by omega)
      rw [this]; rfl
  · intro c tpd s es h1 _ hs hu
    exact uninterrupted_due c tpd h1 es s hs hu

/-- Witness of C1: the boot tick at `132925` and a run of two firing ticks. -/
theorem scheduled_rotation_step_witness :
    ((loop (quietTick 132925) bootState).motor .one).distanceToGo = -4096
    ∧ (loop (quietTick 132925) bootState).lastDir .one = -1
    ∧ (loop (quietTick 132925) bootState).nextDue .one = 265846
    ∧ (runTicks bootState [quietTick 132925, finishTick 265846]).nextDue .one = 398769 := by
  have h := scheduled_rotation_step.1 .one (quietTick 132925) bootState
    (by decide) (by decide) (by decide) (by decide) (by decide) (by decide) (by decide)
    (by decide)
  have h2 := scheduled_rotation_step.2 .one 650 bootState
    [quietTick 132925, finishTick 265846] (by decide) (by decide) (by decide)
    ⟨by decide, by decide, by decide, by decide,
      ⟨by decide, by decide, by decide, by decide, trivial⟩⟩
  refine ⟨h.1.trans (by decide), h.2.1.trans (by decide), ?_, h2.trans (by decide)⟩
  exact (h.2.2.2.2.2.2.2.2.2 (by decide)).trans (by decide)

/-- Counterexample to C1 as stated: a tick that meets every condition of the
claim (enabled, turbo inactive, `tpd = 650`, pending due time `132923`,
`now = 2147749504 >= 132923`, idle motor) and does not advance the due time by
`intervalMs = 132923`: the clamp of the block resets it to `now + intervalMs`. -/
theorem scheduled_rotation_step_counterexample :
    (atSchedule (quietTick 2147749504) bootState).enabled = true
    ∧ (atSchedule (quietTick 2147749504) bootState).turboActive = false
    ∧ (atSchedule (quietTick 2147749504) bootState).tpd .one = 650
    ∧ (atSchedule (quietTick 2147749504) bootState).nextDue .one = 132923
    ∧ (atSchedule (quietTick 2147749504) bootState).nextDue .one ≤ (quietTick 2147749504).now
    ∧ ((atSchedule (quietTick 2147749504) bootState).motor .one).distanceToGo = 0
    ∧ intervalFromTPD 650 = 132923
    ∧ (loop (quietTick 2147749504) bootState).nextDue .one = 2147882427
    ∧ (loop (quietTick 2147749504) bootState).nextDue .one
        ≠ (132923 + intervalFromTPD 650) % 4294967296 := by
  decide

/-- C2 (not met by the code). Drift-bound clamp. The claim is that a tick which
issues a scheduled rotation while the advanced due time `nextDue + intervalMs`
still lags `now` by more than two intervals leaves `nextDue = now + intervalMs`.
The code does not: its clamp test `(long)(nextDue - now) > (long)(2 * intervalMs)`
takes the signed distance from `now` to the due time, which is negative for a due
time in the past, so for every such tick that comes at most `2^31` ms after the
due time `nextDue` is left at `nextDue + intervalMs`, which differs from
`now + intervalMs` and is still more than two intervals in the past. -/
theorem drift_clamp_not_applied (c : Channel) (e : TickIn) (s : State)
    (hen : (atSchedule e s).enabled = true) (hturbo : (atSchedule e s).turboActive = false)
    (h1 : 1 ≤ (atSchedule e s).tpd c) (_h2 : (atSchedule e s).tpd c ≤ 1200)
    (hdue : 0 < (atSchedule e s).nextDue c)
    (hidle : ((atSchedule e s).motor c).distanceToGo = 0)
    (hclk : e.now < 4294967296)
    (hlag : (atSchedule e s).nextDue c + intervalFromTPD ((atSchedule e s).tpd c)
              + 2 * intervalFromTPD ((atSchedule e s).tpd c) < e.now)
    (hfar : e.now ≤ (atSchedule e s).nextDue c + 2147483648) :
    (loop e s).nextDue c
        = (atSchedule e s).nextDue c + intervalFromTPD ((atSchedule e s).tpd c)
    ∧ (loop e s).nextDue c
        ≠ (e.now + intervalFromTPD ((atSchedule e s).tpd c)) % 4294967296
    ∧ (loop e s).nextDue c + 2 * intervalFromTPD ((atSchedule e s).tpd c) < e.now := by
  have hnow : (atSchedule e s).nextDue c ≤ e.now := by omega
  have hd : (atSchedule e s).due e.now c := ⟨hturbo, h1, hdue, hnow, hidle⟩
  obtain ⟨-, -, v3, -, -⟩ := schedule_view c e.now (atSchedule e s)
  rw [if_pos hd] at v3
  obtain ⟨-, i2⟩ := intervalFromTPD_pos _ h1
  rw [loop_enabled e s hen, v3,
    advancedDue_no_clamp e.now _ _ hclk hnow i2 (by omega)]
  unfold wrapUL
  omega

/-- Witness of C2: the boot due time `132923` served at `now = 1000000` with
`tpd = 650`: the due time becomes `265846`, not `1132923`. -/
theorem drift_clamp_not_applied_witness :
    (loop (quietTick 1000000) bootState).nextDue .one = 265846
    ∧ (loop (quietTick 1000000) bootState).nextDue .one ≠ 1132923
    ∧ (loop (quietTick 1000000) bootState).nextDue .one + 2 * 132923 < 1000000 := by
  have h := drift_clamp_not_applied .one (quietTick 1000000) bootState
    (by decide) (by decide) (by decide) (by decide) (by decide) (by decide) (by decide)
    (by decide) (by decide)
  exact ⟨h.1.trans (by decide), by decide, by decide⟩

/-- Counterexample to C3 as stated: turbo is active for channel 1 only, not
expired, the tick is enabled, channel 2 has `tpd = 650`, a due time `132923` that
has passed at `now = 132925` and an idle motor; the tick issues nothing on
channel 2 and leaves its due time, whereas the same tick without turbo queues
`-4096` steps and advances the due time to `265846`. -/
theorem turbo_isolation_counterexample :
    (atSchedule (quietTick 132925) turboOnOne).turboActive = true
    ∧ (atSchedule (quietTick 132925) turboOnOne).turboM1 = true
    ∧ (atSchedule (quietTick 132925) turboOnOne).turboM2 = false
    ∧ (atSchedule (quietTick 132925) turboOnOne).enabled = true
    ∧ (atSchedule (quietTick 132925) turboOnOne).tpd .two = 650
    ∧ (atSchedule (quietTick 132925) turboOnOne).nextDue .two = 132923
    ∧ ((atSchedule (quietTick 132925) turboOnOne).motor .two).distanceToGo = 0
    ∧ ((loop (quietTick 132925) turboOnOne).motor .two).distanceToGo = 0
    ∧ (loop (quietTick 132925) turboOnOne).nextDue .two = 132923
    ∧ ((loop (quietTick 132925) bootState).motor .two).distanceToGo = -4096
    ∧ (loop (quietTick 132925) bootState).nextDue .two = 265846 := by
  decide

/-- C3 (amended). Turbo gates the scheduling of both channels. On every enabled
tick whose scheduling step finds turbo active, whatever the selection `(m1, m2)`
is (in particular channel 1 only), the scheduling step changes nothing: for each
channel, selected or not, the tick leaves the remaining distance as the motor
service left it and leaves `nextDue` and `lastDirection` as they were, even when
the channel has `tpd > 0`, a due time that has passed and an idle motor. -/
theorem turbo_gates_both_channels (c : Channel) (e : TickIn) (s : State)
    (hen : (atSchedule e s).enabled = true)
    (hturbo : (atSchedule e s).turboActive = true) :
    loop e s = atSchedule e s
    ∧ (loop e s).motor c = (atSchedule e s).motor c
    ∧ (loop e s).nextDue c = (atSchedule e s).nextDue c
    ∧ (loop e s).lastDir c = (atSchedule e s).lastDir c := by
  have h1 : ¬ (atSchedule e s).due e.now .one := fun h => by
    have := h.1; rw [hturbo] at this; exact Bool.noConfusion this
  have h2 : ¬ (atSchedule e s).due e.now .two := fun h => by
    have := h.1; rw [hturbo] at this; exact Bool.noConfusion this
  have hl : loop e s = atSchedule e s := by
    rw [loop_enabled e s hen]
    unfold schedule
    rw [schedule1_skip _ _ h1, schedule2_skip _ _ h2]
  exact ⟨hl, by rw [hl], by rw [hl], by rw [hl]⟩

/-- Witness of C3: turbo on channel 1 only, channel 2 due and idle. -/
theorem turbo_gates_both_channels_witness :
    ((loop (quietTick 132925) turboOnOne).motor .two).distanceToGo = 0
    ∧ (loop (quietTick 132925) turboOnOne).nextDue .two = 132923
    ∧ (loop (quietTick 132925) turboOnOne).lastDir .two = 1 := by
  have h := turbo_gates_both_channels .two (quietTick 132925) turboOnOne
    (by decide) (by decide)
  exact ⟨(congrArg Stepper.distanceToGo h.2.1).trans (by decide),
    h.2.2.1.trans (by decide), h.2.2.2.trans (by decide)⟩

/-! ## Frames of the steps before the scheduling step -/

theorem updateTurbo_frame (c : Channel) (now : Nat) (s : State) :
    (updateTurbo now s).nextDue c = s.nextDue c
    ∧ (updateTurbo now s).lastDir c = s.lastDir c
    ∧ (updateTurbo now s).tpd c = s.tpd c
    ∧ (updateTurbo now s).plan c = s.plan c
    ∧ (updateTurbo now s).enabled = s.enabled := by
  unfold updateTurbo
  cases c <;> simp only [State.nextDue, State.lastDir, State.tpd, State.plan] <;>
    split_ifs <;> simp

theorem startTurbo_frame (c : Channel) (m1 m2 : Bool) (minutes now : Nat) (s : State) :
    (startTurbo m1 m2 minutes now s).nextDue c = s.nextDue c
    ∧ (startTurbo m1 m2 minutes now s).lastDir c = s.lastDir c
    ∧ (startTurbo m1 m2 minutes now s).tpd c = s.tpd c
    ∧ (startTurbo m1 m2 minutes now s).plan c = s.plan c
    ∧ (startTurbo m1 m2 minutes now s).enabled = s.enabled := by
  unfold startTurbo
  cases c <;> simp only [State.nextDue, State.lastDir, State.tpd, State.plan] <;>
    split_ifs <;> simp

theorem updateModeDebounced_frame (c : Channel) (a b : Bool) (now : Nat) (s : State) :
    (updateModeDebounced a b now s).nextDue c = s.nextDue c
    ∧ (updateModeDebounced a b now s).lastDir c = s.lastDir c
    ∧ (updateModeDebounced a b now s).tpd c = s.tpd c
    ∧ (updateModeDebounced a b now s).plan c = s.plan c := by
  unfold updateModeDebounced
  cases c <;> simp only [State.nextDue, State.lastDir, State.tpd, State.plan] <;>
    split_ifs <;> simp

theorem applyModePreset_frame (c : Channel) (mode : Int) (s : State) :
    (applyModePreset mode s).nextDue c = s.nextDue c
    ∧ (applyModePreset mode s).lastDir c = s.lastDir c
    ∧ ((applyModePreset mode s).tpd c = 0 → s.tpd c = 0) := by
  unfold applyModePreset
  cases c <;> simp only [State.nextDue, State.lastDir, State.tpd] <;>
    split_ifs <;> simp

theorem modeStep_frame (c : Channel) (a b : Bool) (now : Nat) (s : State) :
    (modeStep a b now s).nextDue c = s.nextDue c
    ∧ (modeStep a b now s).lastDir c = s.lastDir c
    ∧ ((modeStep a b now s).tpd c = 0 → s.tpd c = 0) := by
  obtain ⟨u1, u2, u3, -⟩ := updateModeDebounced_frame c a b now s
  unfold modeStep
  simp only []
  split_ifs
  · obtain ⟨p1, p2, p3⟩ := applyModePreset_frame c
      (updateModeDebounced a b now s).stableMode (updateModeDebounced a b now s)
    exact ⟨p1.trans u1, p2.trans u2, fun h => u3 ▸ p3 h⟩
  · exact ⟨u1, u2, fun h => u3 ▸ h⟩

theorem handleConfig_frame (c : Channel) (body : Option ConfigBody) (now : Nat) (s : State) :
    (handleConfig body now s).lastDir c = s.lastDir c
    ∧ ((s.tpd c = 0 → s.nextDue c = 0) →
        (handleConfig body now s).tpd c = 0 → (handleConfig body now s).nextDue c = 0) := by
  unfold handleConfig
  cases body with
  | none => exact ⟨rfl, fun h => h⟩
  | some doc =>
    cases c <;> simp only [State.nextDue, State.lastDir, State.tpd] <;>
      refine ⟨trivial, fun _ h => ?_⟩ <;> rw [if_neg (by omega)]

theorem handleClient_frame (c : Channel) (req : Request) (now : Nat) (s : State) :
    (handleClient req now s).lastDir c = s.lastDir c
    ∧ ((s.tpd c = 0 → s.nextDue c = 0) →
        (handleClient req now s).tpd c = 0 → (handleClient req now s).nextDue c = 0) := by
  cases req with
  | idle => exact ⟨rfl, fun h => h⟩
  | start => cases c <;> exact ⟨rfl, fun h => h⟩
  | stop => cases c <;> exact ⟨rfl, fun h => h⟩
  | config body => exact handleConfig_frame c body now s
  | turbo body =>
    cases body with
    | none => exact ⟨rfl, fun h => h⟩
    | some doc =>
      simp only [handleClient, handleTurbo]
      obtain ⟨f1, f2, f3, -, -⟩ := startTurbo_frame c (doc.m1.getD false) (doc.m2.getD false)
        (constrain (doc.min.getD 5) 1 15).toNat now s
      rw [f1, f2, f3]
      exact ⟨rfl, fun h => h⟩

theorem preTick_frame (c : Channel) (e : TickIn) (s : State) :
    (preTick e s).lastDir c = s.lastDir c
    ∧ ((s.tpd c = 0 → s.nextDue c = 0) →
        (preTick e s).tpd c = 0 → (preTick e s).nextDue c = 0) := by
  obtain ⟨h1, h2⟩ := handleClient_frame c e.req e.tReq s
  obtain ⟨m1, m2, m3⟩ := modeStep_frame c e.pinA e.pinB e.tMode (handleClient e.req e.tReq s)
  obtain ⟨t1, t2, t3, -, -⟩ := updateTurbo_frame c e.tTurbo
    (modeStep e.pinA e.pinB e.tMode (handleClient e.req e.tReq s))
  unfold preTick
  simp only []
  rw [t1, t2, t3, m1, m2]
  exact ⟨h1, fun hinv h => h2 hinv (m3 h)⟩

theorem atSchedule_lastDir (c : Channel) (e : TickIn) (s : State) :
    (atSchedule e s).lastDir c = s.lastDir c := by
  unfold atSchedule
  rw [(service_frame c e _).2.1, (preTick_frame c e s).1]

/-- A channel with `tpd = 0` and no pending due time keeps this through a tick. -/
theorem loop_off_inv (c : Channel) (e : TickIn) (s : State)
    (hinv : s.tpd c = 0 → s.nextDue c = 0) :
    (loop e s).tpd c = 0 → (loop e s).nextDue c = 0 := by
  obtain ⟨v1, -, v3, -⟩ := loop_view c e s
  rw [v1, v3]
  intro h0
  have hnd : ¬ (atSchedule e s).due e.now c := fun h => by
    have := h.2.1; omega
  rw [if_neg (fun h => hnd h.2)]
  unfold atSchedule at h0 ⊢
  rw [(service_frame c e _).1]
  rw [(service_frame c e _).2.2.1] at h0
  exact (preTick_frame c e s).2 hinv h0

theorem runTicks_off_inv (c : Channel) (es : List TickIn) :
    ∀ s : State, (s.tpd c = 0 → s.nextDue c = 0) →
      (runTicks s es).tpd c = 0 → (runTicks s es).nextDue c = 0 := by
  induction es with
  | nil => intro s h; exact h
  | cons e es ih =>
    intro s h
    exact ih (loop e s) (loop_off_inv c e s h)

/-- C4. A disabled channel never schedules. Over every run of ticks, of any
length and with any clock values and requests, on each tick at whose scheduling
step a channel's `tpd` is `0`: the scheduling step does not change the motor's
queued distance, the due time or `lastDirection` of that channel, whatever
`nextDue`, `enabled`, the turbo state and the motor state are; over the whole tick
the distance is the one the motor service left and the due time is the one the
tick started its scheduling with. And a channel that starts with no pending due
time whenever its `tpd` is `0` has, after every run of ticks, no pending due time
(`nextDue = 0`) whenever its `tpd` is `0`. -/
theorem tpd_zero_never_schedules (c : Channel) (s0 : State) (es : List TickIn)
    (e : TickIn) :
    ((atSchedule e (runTicks s0 es)).tpd c = 0 →
        (schedule e.now (atSchedule e (runTicks s0 es))).motor c
            = (atSchedule e (runTicks s0 es)).motor c
        ∧ (schedule e.now (atSchedule e (runTicks s0 es))).nextDue c
            = (atSchedule e (runTicks s0 es)).nextDue c
        ∧ (schedule e.now (atSchedule e (runTicks s0 es))).lastDir c
            = (atSchedule e (runTicks s0 es)).lastDir c
        ∧ (loop e (runTicks s0 es)).motor c
            = (if (preTick e (runTicks s0 es)).enabled = true
               then (service e (preTick e (runTicks s0 es))).motor c
               else (haltStep e (preTick e (runTicks s0 es))).motor c)
        ∧ (loop e (runTicks s0 es)).nextDue c = (preTick e (runTicks s0 es)).nextDue c
        ∧ (loop e (runTicks s0 es)).lastDir c = (runTicks s0 es).lastDir c)
    ∧ ((s0.tpd c = 0 → s0.nextDue c = 0) →
        ((runTicks s0 es).tpd c = 0 → (runTicks s0 es).nextDue c = 0)
        ∧ ((loop e (runTicks s0 es)).tpd c = 0 → (loop e (runTicks s0 es)).nextDue c = 0)) := by
  refine ⟨fun h0 => ?_, fun hinv => ?_⟩
  · have hnd : ¬ (atSchedule e (runTicks s0 es)).due e.now c := fun h => by
      have := h.2.1; omega
    obtain ⟨v1, v2, v3, -, -⟩ := schedule_view c e.now (atSchedule e (runTicks s0 es))
    rw [if_neg hnd] at v1 v2 v3
    obtain ⟨w1, w2, -, -⟩ := loop_view c e (runTicks s0 es)
    rw [if_neg (fun h => hnd h.2)] at w1 w2
    refine ⟨v1, v3, v2, ?_, ?_, ?_⟩
    · cases hen : (preTick e (runTicks s0 es)).enabled
      · rw [loop_disabled e _ hen]; simp
      · rw [loop_enabled e _ hen, v1]; simp [atSchedule]
    · rw [w1]; exact (service_frame c e _).1
    · rw [w2]; exact atSchedule_lastDir c e _
  · have h := runTicks_off_inv c es s0 hinv
    exact ⟨h, loop_off_inv c e _ h⟩

/-- Witness of C4: channel 1 switched off (`tpd = 0`, no due time) over a run of
two ticks and a third tick, late in time, with the motor idle. -/
theorem tpd_zero_never_schedules_witness :
    ((loop (quietTick 90000000) (runTicks offState [quietTick 5, quietTick 132925])).motor
        .one).distanceToGo = 0
    ∧ (loop (quietTick 90000000) (runTicks offState [quietTick 5, quietTick 132925])).nextDue
        .one = 0
    ∧ (runTicks offState [quietTick 5, quietTick 132925]).nextDue .one = 0 := by
  have h := tpd_zero_never_schedules .one offState [quietTick 5, quietTick 132925]
    (quietTick 90000000)
  have h1 := h.1 (by decide)
  have h2 := h.2 (by decide)
  exact ⟨(congrArg Stepper.distanceToGo h1.2.2.2.1).trans (by decide),
    h2.2 (by decide), h2.1 (by decide)⟩

/-! ## Issued directions over a run -/

/-- The first direction a run issues under the Alternate plan is the flip of the
`lastDirection` the run starts with. -/
theorem issuedDirs_head (c : Channel) (es : List TickIn) :
    ∀ s : State, planStays c DIR_ALT s es →
      ∀ d ∈ (issuedDirs c s es).head?, d = if s.lastDir c > 0 then -1 else 1 := by
  induction es with
  | nil => intro s _ d hd; simp [issuedDirs] at hd
  | cons e es ih =>
    intro s hp d hd
    obtain ⟨hplan, hrest⟩ := hp
    obtain ⟨-, w2, -, -⟩ := loop_view c e s
    have hl := atSchedule_lastDir c e s
    unfold issuedDirs at hd
    split_ifs at hd with hf
    · simp only [List.head?_cons, Option.mem_def, Option.some.injEq] at hd
      rw [← hd, hplan, hl]
      exact (pickDir_cases DIR_ALT (s.lastDir c)).2.2.2.2 (by decide) (by decide)
    · have := ih (loop e s) hrest d hd
      rw [w2, if_neg hf, hl] at this
      exact this

theorem issuedDirs_chain (c : Channel) (es : List TickIn) :
    ∀ s : State, planStays c DIR_ALT s es →
      List.Chain' (fun d d' : Int => d' = -d) (issuedDirs c s es) := by
  induction es with
  | nil => intro s _; simp [issuedDirs]
  | cons e es ih =>
    intro s hp
    obtain ⟨hplan, hrest⟩ := hp
    obtain ⟨-, w2, -, -⟩ := loop_view c e s
    unfold issuedDirs
    split_ifs with hf
    · rw [List.chain'_cons']
      refine ⟨fun d hd => ?_, ih (loop e s) hrest⟩
      have h := issuedDirs_head c es (loop e s) hrest d hd
      obtain ⟨p1, p2, -⟩ :=
        pickDir_cases ((atSchedule e s).plan c) ((atSchedule e s).lastDir c)
      rw [w2, if_pos hf, p1] at h
      rw [h]
      rcases p2 with p2 | p2 <;> rw [p2] <;> decide
    · exact ih (loop e s) hrest

theorem issuedDirs_unit (c : Channel) (es : List TickIn) :
    ∀ s : State, ∀ d ∈ issuedDirs c s es, d = 1 ∨ d = -1 := by
  induction es with
  | nil => intro s d hd; simp [issuedDirs] at hd
  | cons e es ih =>
    intro s d hd
    unfold issuedDirs at hd
    split_ifs at hd with hf
    · rcases List.mem_cons.mp hd with h | h
      · rw [h]; exact (pickDir_cases _ _).2.1
      · exact ih (loop e s) d h
    · exact ih (loop e s) d hd

theorem issuedDirs_cons (c : Channel) (s : State) (e : TickIn) (es : List TickIn) :
    issuedDirs c s (e :: es) =
      if (atSchedule e s).enabled = true ∧ (atSchedule e s).due e.now c then
        (pickDir ((atSchedule e s).plan c) ((atSchedule e s).lastDir c)).1
          :: issuedDirs c (loop e s) es
      else issuedDirs c (loop e s) es := rfl

theorem runTicks_lastDir (c : Channel) (es : List TickIn) :
    ∀ s : State, (runTicks s es).lastDir c = (issuedDirs c s es).getLastD (s.lastDir c) := by
  induction es with
  | nil => intro s; rfl
  | cons e es ih =>
    intro s
    obtain ⟨-, w2, -, -⟩ := loop_view c e s
    have hl := atSchedule_lastDir c e s
    simp only [runTicks]
    rw [ih (loop e s), w2, issuedDirs_cons]
    split_ifs with hf
    · rw [List.getLastD_cons, (pickDir_cases _ _).1]
    · rw [hl]

/-- C5. Strict alternation over issued rotations. For a channel whose direction
plan is Alternate: a tick that issues a scheduled rotation (enabled, guard of the
scheduling block true) queues `dir * 4096` steps with `dir` the flip of
`lastDirection` (`-1` if it is positive, `+1` if not; for a `lastDirection` in
`{+1, -1}` its negation) and records `dir` in `lastDirection`; a tick that issues
no scheduled rotation (disabled, turbo active, not due, motor busy) leaves
`lastDirection` unchanged. Hence over every run of ticks on which the plan stays
Alternate, every issued direction is `+1` or `-1`, any two consecutive issued
directions are opposite, and `lastDirection` after the run is the last issued
direction (or its initial value when nothing was issued). -/
theorem alternate_directions_strictly_alternate :
    (∀ (c : Channel) (e : TickIn) (s : State), (atSchedule e s).plan c = DIR_ALT →
        ((atSchedule e s).enabled = true ∧ (atSchedule e s).due e.now c →
            (loop e s).lastDir c = (if s.lastDir c > 0 then -1 else 1)
            ∧ (s.lastDir c = 1 ∨ s.lastDir c = -1 → (loop e s).lastDir c = - s.lastDir c)
            ∧ ((loop e s).motor c).distanceToGo = (loop e s).lastDir c * 4096
            ∧ issuedDirs c s [e] = [(loop e s).lastDir c])
        ∧ (¬ ((atSchedule e s).enabled = true ∧ (atSchedule e s).due e.now c) →
            (loop e s).lastDir c = s.lastDir c ∧ issuedDirs c s [e] = []))
    ∧ (∀ (c : Channel) (s : State) (es : List TickIn), planStays c DIR_ALT s es →
        (∀ d ∈ issuedDirs c s es, d = 1 ∨ d = -1)
        ∧ (∀ (pre post : List Int) (a b : Int),
            issuedDirs c s es = pre ++ a :: b :: post → b = -a)
        ∧ (∀ d ∈ (issuedDirs c s es).head?, d = if s.lastDir c > 0 then -1 else 1)
        ∧ (runTicks s es).lastDir c = (issuedDirs c s es).getLastD (s.lastDir c)) := by
  refine ⟨fun c e s hplan => ⟨fun hf => ?_, fun hf => ?_⟩, fun c s es hp => ?_⟩
  · obtain ⟨-, w2, -, -⟩ := loop_view c e s
    have hl := atSchedule_lastDir c e s
    obtain ⟨v1, -, -, -, -⟩ := schedule_view c e.now (atSchedule e s)
    obtain ⟨p1, -, -, -, p5⟩ :=
      pickDir_cases ((atSchedule e s).plan c) ((atSchedule e s).lastDir c)
    have hflip := p5 (by rw [hplan]; decide) (by rw [hplan]; decide)
    rw [if_pos hf, p1] at w2
    simp only [hl] at hflip w2 v1
    rw [if_pos hf.2] at v1
    refine ⟨w2.trans hflip, ?_, ?_, ?_⟩
    · intro h
      rw [w2, hflip]
      rcases h with h | h <;> rw [h] <;> decide
    · rw [loop_enabled e s hf.1, v1, ← loop_enabled e s hf.1, w2]
      rfl
    · simp only [issuedDirs]
      rw [if_pos hf, w2, hl]
  · obtain ⟨-, w2, -, -⟩ := loop_view c e s
    rw [if_neg hf, atSchedule_lastDir c e s] at w2
    refine ⟨w2, ?_⟩
    simp only [issuedDirs]
    rw [if_neg hf]
  · refine ⟨issuedDirs_unit c es s, ?_, issuedDirs_head c es s hp, runTicks_lastDir c es s⟩
    intro pre post a b h
    have hc := issuedDirs_chain c es s hp
    rw [h, List.chain'_split] at hc
    exact (List.chain'_cons.mp hc.2).1

/-- Witness of C5: an Alternate channel over a run with idle ticks between three
issued rotations. -/
theorem alternate_directions_strictly_alternate_witness :
    (loop (quietTick 132925) bootState).lastDir .one = -1
    ∧ issuedDirs .one bootState
        [quietTick 5, quietTick 132925, finishTick 132927, finishTick 265846,
          finishTick 265848, finishTick 398769] = [-1, 1, -1]
    ∧ (runTicks bootState
        [quietTick 5, quietTick 132925, finishTick 132927, finishTick 265846,
          finishTick 265848, finishTick 398769]).lastDir .one = -1 := by
  have h1 := (alternate_directions_strictly_alternate.1 .one (quietTick 132925) bootState
    (by decide)).1 (by decide)
  have h2 := alternate_directions_strictly_alternate.2 .one bootState
    [quietTick 5, quietTick 132925, finishTick 132927, finishTick 265846,
      finishTick 265848, finishTick 398769]
    ⟨by decide, by decide, by decide, by decide, by decide, by decide, trivial⟩
  exact ⟨h1.1.trans (by decide), by decide, h2.2.2.2.trans (by decide)⟩

/-! ## Turbo -/

theorem turbo_span (minutes : Nat) (h15 : minutes ≤ 15) :
    toLong (wrapUL ((6 * STEPS_PER_REV).toNat * minutes)) = 6 * 4096 * (minutes : Int) := by
  have h : (6 * STEPS_PER_REV).toNat = 24576 := by decide
  rw [h]
  unfold toLong wrapUL
  split_ifs <;> omega

theorem turbo_end (minutes now : Nat) :
    wrapUL (now + wrapUL (wrapUL (minutes * 60) * 1000))
      = (now + minutes * 60000) % 4294967296 := by
  unfold wrapUL
  omega

/-- The view of `startTurbo` on the turbo variables and on a channel's motor. -/
theorem startTurbo_view (c : Channel) (m1 m2 : Bool) (minutes now : Nat) (s : State) :
    (startTurbo m1 m2 minutes now s).turboActive = true
    ∧ (startTurbo m1 m2 minutes now s).turboStopping = false
    ∧ (startTurbo m1 m2 minutes now s).turboM1 = m1
    ∧ (startTurbo m1 m2 minutes now s).turboM2 = m2
    ∧ (startTurbo m1 m2 minutes now s).turboEndMs
        = wrapUL (now + wrapUL (wrapUL (minutes * 60) * 1000))
    ∧ (startTurbo m1 m2 minutes now s).motor c =
        (if (startTurbo m1 m2 minutes now s).turboSel c = true then
          ⟨wrapLong ((s.motor c).distanceToGo
            + toLong (wrapUL ((6 * STEPS_PER_REV).toNat * minutes)))⟩
         else s.motor c) := by
  unfold startTurbo
  cases c <;> cases m1 <;> cases m2 <;> simp [State.motor, State.turboSel, Stepper.move]

/-- C6. Turbo start. For every `m1`, `m2`, every `minutes` in `[1, 15]` and every
prior state (turbo Idle, Active or Stopping), `startTurbo` at time `now` leaves
`active = true`, `stopping = false`, the selection equal to `(m1, m2)` and
`endAt = now + minutes * 60000` on the 32-bit clock; every selected channel that
was idle ends with exactly `6 * 4096 * minutes` steps remaining, and an unselected
channel's remaining distance is unchanged. The `/turbo` handler calls it with the
requested minutes clamped to `[1, 15]`. -/
theorem startTurbo_spec (m1 m2 : Bool) (minutes now : Nat) (s : State)
    (h1 : 1 ≤ minutes) (h15 : minutes ≤ 15) :
    (startTurbo m1 m2 minutes now s).turboActive = true
    ∧ (startTurbo m1 m2 minutes now s).turboStopping = false
    ∧ (startTurbo m1 m2 minutes now s).turboM1 = m1
    ∧ (startTurbo m1 m2 minutes now s).turboM2 = m2
    ∧ (startTurbo m1 m2 minutes now s).turboEndMs = (now + minutes * 60000) % 4294967296
    ∧ (now + minutes * 60000 < 4294967296 →
        (startTurbo m1 m2 minutes now s).turboEndMs = now + minutes * 60000)
    ∧ (∀ c : Channel, (startTurbo m1 m2 minutes now s).turboSel c = true →
        (s.motor c).distanceToGo = 0 →
        ((startTurbo m1 m2 minutes now s).motor c).distanceToGo = 6 * 4096 * (minutes : Int))
    ∧ (∀ c : Channel, (startTurbo m1 m2 minutes now s).turboSel c = false →
        (startTurbo m1 m2 minutes now s).motor c = s.motor c)
    ∧ (∀ k : Int, constrain k 1 15 = (minutes : Int) →
        handleClient (Request.turbo (some ⟨some m1, some m2, some k⟩)) now s
          = startTurbo m1 m2 minutes now s) := by
  obtain ⟨a1, a2, a3, a4, a5, -⟩ := startTurbo_view .one m1 m2 minutes now s
  refine ⟨a1, a2, a3, a4, ?_, ?_, ?_, ?_, ?_⟩
  · rw [a5, turbo_end]
  · intro h
    rw [a5, turbo_end]
    exact Nat.mod_eq_of_lt h
  · intro c hsel hidle
    rw [(startTurbo_view c m1 m2 minutes now s).2.2.2.2.2, if_pos hsel, hidle,
      turbo_span minutes h15]
    show wrapLong _ = _
    unfold wrapLong
    omega
  · intro c hsel
    rw [(startTurbo_view c m1 m2 minutes now s).2.2.2.2.2, if_neg (by simp [hsel])]
  · intro k hk
    simp only [handleClient, handleTurbo, Option.getD_some, hk, Int.toNat_ofNat]

/-- Witness of C6: `startTurbo(true, false, 5)` at time `0` from the boot state
queues `122880` steps on channel 1 and leaves channel 2. -/
theorem startTurbo_spec_witness :
    (startTurbo true false 5 0 bootState).turboEndMs = 300000
    ∧ ((startTurbo true false 5 0 bootState).motor .one).distanceToGo = 122880
    ∧ (startTurbo true false 5 0 bootState).motor .two = bootState.motor .two := by
  have h := startTurbo_spec true false 5 0 bootState (by decide) (by decide)
  exact ⟨h.2.2.2.2.1.trans (by decide),
    (h.2.2.2.2.2.2.1 .one (by decide) (by decide)).trans (by decide),
    h.2.2.2.2.2.2.2.1 .two (by decide)⟩

/-- Counterexample to C7 as stated: starting turbo on selected channel 1 with a
counter-clockwise rotation in flight (`-100` steps remaining) leaves a positive
remaining distance `122780`, not `-(100 + 122880)`; and a refill for a channel
whose last issued direction is `-1` queues `+8192` steps, not `-8192`. -/
theorem turbo_direction_counterexample :
    (ccwState.motor .one).distanceToGo = -100
    ∧ ccwState.lastDir .one = -1
    ∧ ((startTurbo true false 5 0 ccwState).motor .one).distanceToGo = 122780
    ∧ ¬ ((startTurbo true false 5 0 ccwState).motor .one).distanceToGo < 0
    ∧ ((startTurbo true false 5 0 ccwState).motor .one).distanceToGo ≠ -(100 + 6 * 4096 * 5)
    ∧ ccwTurboState.turboActive = true ∧ ccwTurboState.turboM1 = true
    ∧ ccwTurboState.turboStopping = false
    ∧ ccwTurboState.lastDir .one = -1
    ∧ (ccwTurboState.motor .one).distanceToGo = 0
    ∧ ((updateTurbo 1000 ccwTurboState).motor .one).distanceToGo = 8192
    ∧ ((updateTurbo 1000 ccwTurboState).motor .one).distanceToGo ≠ -(2 * 4096) := by
  decide

/-- The view of `updateTurbo` while turbo is active, not stopping and not expired. -/
theorem updateTurbo_active_view (c : Channel) (now : Nat) (s : State)
    (hact : s.turboActive = true) (hstop : s.turboStopping = false)
    (hnow : now < s.turboEndMs) :
    (updateTurbo now s).motor c =
        (if s.turboSel c = true ∧ (s.motor c).distanceToGo = 0 then ⟨2 * 4096⟩
         else s.motor c)
    ∧ (updateTurbo now s).turboActive = true
    ∧ (updateTurbo now s).turboStopping = false
    ∧ (updateTurbo now s).turboM1 = s.turboM1
    ∧ (updateTurbo now s).turboM2 = s.turboM2
    ∧ (updateTurbo now s).turboEndMs = s.turboEndMs := by
  have hn : ¬ (now ≥ s.turboEndMs) := by omega
  unfold updateTurbo
  simp only [hact, hstop, hn, Bool.not_true, Bool.false_eq_true, if_false, false_and,
    Bool.not_false, and_true]
  cases c <;> simp only [State.motor, State.turboSel, Stepper.move, STEPS_PER_REV] <;>
    split_ifs <;> simp_all

/-- C7 (amended). Turbo always queues distance in the positive direction. The
distance turbo queues does not depend on the channel's direction: starting turbo
adds `6 * 4096 * minutes` to the signed remaining distance of every selected
channel, so a selected channel with a counter-clockwise rotation in flight
(remaining distance `-k`, `0 < k <= 4096`) ends with the positive remaining
distance `6 * 4096 * minutes - k`, and a refill queues `+2 * 4096` steps whatever
the channel's `lastDirection` is, and leaves `lastDirection` unchanged. -/
theorem turbo_queues_forward (c : Channel) :
    (∀ (m1 m2 : Bool) (minutes now : Nat) (s : State), 1 ≤ minutes → minutes ≤ 15 →
        (startTurbo m1 m2 minutes now s).turboSel c = true →
        ((-2147483648 ≤ (s.motor c).distanceToGo
            ∧ (s.motor c).distanceToGo + 6 * 4096 * (minutes : Int) < 2147483648) →
          ((startTurbo m1 m2 minutes now s).motor c).distanceToGo
            = (s.motor c).distanceToGo + 6 * 4096 * (minutes : Int))
        ∧ (∀ k : Int, 0 < k → k ≤ 4096 → (s.motor c).distanceToGo = -k →
            ((startTurbo m1 m2 minutes now s).motor c).distanceToGo
                = 6 * 4096 * (minutes : Int) - k
            ∧ 0 < ((startTurbo m1 m2 minutes now s).motor c).distanceToGo))
    ∧ (∀ (now : Nat) (s : State), s.turboActive = true → s.turboStopping = false →
        now < s.turboEndMs → s.turboSel c = true → (s.motor c).distanceToGo = 0 →
          ((updateTurbo now s).motor c).distanceToGo = 2 * 4096
          ∧ (updateTurbo now s).lastDir c = s.lastDir c) := by
  refine ⟨fun m1 m2 minutes now s h1 h15 hsel => ?_, fun now s hact hstop hnow hsel hidle => ?_⟩
  · have hm := (startTurbo_view c m1 m2 minutes now s).2.2.2.2.2
    rw [if_pos hsel, turbo_span minutes h15] at hm
    rw [hm]
    refine ⟨fun hr => ?_, fun k hk1 hk2 hd => ?_⟩
    · show wrapLong _ = _
      unfold wrapLong
      omega
    · show wrapLong _ = _ ∧ 0 < wrapLong _
      rw [hd]
      unfold wrapLong
      have hm : (-k + 6 * 4096 * (minutes : Int) + 2147483648) % 4294967296
          = -k + 6 * 4096 * (minutes : Int) + 2147483648 :=
        Int.emod_eq_of_lt (by omega) (by omega)
      rw [hm]
      constructor <;> omega
  · rw [(updateTurbo_active_view c now s hact hstop hnow).1, if_pos ⟨hsel, hidle⟩]
    exact ⟨rfl, (updateTurbo_frame c now s).2.1⟩

/-- Witness of C7: the counter-clockwise channel of the counterexample. -/
theorem turbo_queues_forward_witness :
    ((startTurbo true false 5 0 ccwState).motor .one).distanceToGo = 122780
    ∧ 0 < ((startTurbo true false 5 0 ccwState).motor .one).distanceToGo
    ∧ ((updateTurbo 1000 ccwTurboState).motor .one).distanceToGo = 8192
    ∧ (updateTurbo 1000 ccwTurboState).lastDir .one = -1 := by
  have h := turbo_queues_forward .one
  have h1 := (h.1 true false 5 0 ccwState (by decide) (by decide) (by decide)).2 100
    (by decide) (by decide) (by decide)
  have h2 := h.2 1000 ccwTurboState (by decide) (by decide) (by decide) (by decide)
    (by decide)
  exact ⟨h1.1.trans (by decide), h1.2, h2.1.trans (by decide), h2.2.trans (by decide)⟩

/-- The effect of `updateTurbo` once turbo is stopping or has expired. -/
theorem updateTurbo_stopping (now : Nat) (s : State) (hact : s.turboActive = true)
    (hexp : s.turboStopping = true ∨ now ≥ s.turboEndMs) :
    updateTurbo now s =
      if (s.turboM1 = true → s.s1.distanceToGo = 0)
          ∧ (s.turboM2 = true → s.s2.distanceToGo = 0) then
        { s with turboActive := false, turboM1 := false, turboM2 := false,
                 turboStopping := false }
      else { s with turboStopping := true } := by
  obtain ⟨en, nd1, nd2, ld1, ld2, t1, t2, p1, p2, cm, sm, lm, ta, te, tm1, tm2, ts, m1, m2⟩ := s
  simp only at hact hexp
  subst hact
  unfold updateTurbo
  cases ts <;> cases tm1 <;> cases tm2 <;>
    by_cases hn : now ≥ te <;>
    by_cases hd1 : m1.distanceToGo = 0 <;>
    by_cases hd2 : m2.distanceToGo = 0 <;>
    simp_all

/-- C8. Turbo expiry and graceful stop. For every call of `updateTurbo` with turbo
active and either `stopping` already set or `now >= endAt`: no channel's remaining
distance is changed (nothing is queued, nothing is cleared) and `endAt` is kept;
turbo returns to Idle (`active`, `stopping` and both selection flags false)
exactly when every selected channel has zero remaining distance; otherwise the
state afterwards is Stopping (`active = true`, `stopping = true`) with the
selection unchanged. -/
theorem turbo_graceful_stop (now : Nat) (s : State) (hact : s.turboActive = true)
    (hexp : s.turboStopping = true ∨ now ≥ s.turboEndMs) :
    (updateTurbo now s).s1 = s.s1
    ∧ (updateTurbo now s).s2 = s.s2
    ∧ (updateTurbo now s).turboEndMs = s.turboEndMs
    ∧ ((updateTurbo now s).turboActive = false ↔
        ((s.turboM1 = true → s.s1.distanceToGo = 0)
          ∧ (s.turboM2 = true → s.s2.distanceToGo = 0)))
    ∧ (((s.turboM1 = true → s.s1.distanceToGo = 0)
          ∧ (s.turboM2 = true → s.s2.distanceToGo = 0)) →
        (updateTurbo now s).turboActive = false ∧ (updateTurbo now s).turboStopping = false
        ∧ (updateTurbo now s).turboM1 = false ∧ (updateTurbo now s).turboM2 = false)
    ∧ (¬ ((s.turboM1 = true → s.s1.distanceToGo = 0)
          ∧ (s.turboM2 = true → s.s2.distanceToGo = 0)) →
        (updateTurbo now s).turboActive = true ∧ (updateTurbo now s).turboStopping = true
        ∧ (updateTurbo now s).turboM1 = s.turboM1
        ∧ (updateTurbo now s).turboM2 = s.turboM2) := by
  rw [updateTurbo_stopping now s hact hexp]
  by_cases hall : (s.turboM1 = true → s.s1.distanceToGo = 0)
      ∧ (s.turboM2 = true → s.s2.distanceToGo = 0)
  · rw [if_pos hall]
    exact ⟨rfl, rfl, rfl, ⟨fun _ => hall, fun _ => rfl⟩, fun _ => ⟨rfl, rfl, rfl, rfl⟩,
      fun h => absurd hall h⟩
  · rw [if_neg hall]
    refine ⟨rfl, rfl, rfl, ⟨fun h => ?_, fun h => absurd h hall⟩, fun h => absurd h hall,
      fun _ => ⟨hact, rfl, rfl, rfl⟩⟩
    have h' : s.turboActive = false := h
    rw [hact] at h'
    exact Bool.noConfusion h'

/-- Witness of C8: turbo on both channels expires at `300000` while channel 1
still has `500` steps to go (Stopping), and ends once both are at rest. -/
theorem turbo_graceful_stop_witness :
    (updateTurbo 300000 turboBoth).s1 = ⟨500⟩
    ∧ (updateTurbo 300000 turboBoth).turboActive = true
    ∧ (updateTurbo 300000 turboBoth).turboStopping = true
    ∧ (updateTurbo 300050 { updateTurbo 300000 turboBoth with s1 := ⟨0⟩ }).turboActive = false
    := by
  have h := turbo_graceful_stop 300000 turboBoth (by decide) (by decide)
  have h2 := turbo_graceful_stop 300050 { updateTurbo 300000 turboBoth with s1 := ⟨0⟩ }
    (by decide) (by decide)
  have h3 := h.2.2.2.2.2 (by decide)
  exact ⟨h.1.trans (by decide), h3.1, h3.2.1, (h2.2.2.2.2.1 (by decide)).1⟩

/-- C9. Turbo refill. For every call of `updateTurbo` with turbo active, not
stopping and `now < endAt`: each selected channel whose remaining distance is `0`
is re-queued with exactly `2 * 4096 = 8192` steps, a selected channel with non-zero
remaining distance and every unselected channel keep their remaining distance;
the turbo flags, `endAt` and both channels' `lastDirection` are unchanged. -/
theorem turbo_refill (now : Nat) (s : State) (hact : s.turboActive = true)
    (hstop : s.turboStopping = false) (hnow : now < s.turboEndMs) :
    (∀ c : Channel, s.turboSel c = true → (s.motor c).distanceToGo = 0 →
        ((updateTurbo now s).motor c).distanceToGo = 8192
        ∧ ((updateTurbo now s).motor c).distanceToGo = 2 * STEPS_PER_REV)
    ∧ (∀ c : Channel, s.turboSel c = true → (s.motor c).distanceToGo ≠ 0 →
        (updateTurbo now s).motor c = s.motor c)
    ∧ (∀ c : Channel, s.turboSel c = false → (updateTurbo now s).motor c = s.motor c)
    ∧ (updateTurbo now s).turboActive = true
    ∧ (updateTurbo now s).turboStopping = false
    ∧ (updateTurbo now s).turboM1 = s.turboM1
    ∧ (updateTurbo now s).turboM2 = s.turboM2
    ∧ (updateTurbo now s).turboEndMs = s.turboEndMs
    ∧ (updateTurbo now s).lastDir1 = s.lastDir1
    ∧ (updateTurbo now s).lastDir2 = s.lastDir2 := by
  obtain ⟨-, r2, r3, r4, r5, r6⟩ := updateTurbo_active_view .one now s hact hstop hnow
  refine ⟨fun c hsel hidle => ?_, fun c hsel hbusy => ?_, fun c hsel => ?_,
    r2, r3, r4, r5, r6, (updateTurbo_frame .one now s).2.1, (updateTurbo_frame .two now s).2.1⟩
  · rw [(updateTurbo_active_view c now s hact hstop hnow).1, if_pos ⟨hsel, hidle⟩]
    exact ⟨rfl, rfl⟩
  · rw [(updateTurbo_active_view c now s hact hstop hnow).1, if_neg (fun h => hbusy h.2)]
  · rw [(updateTurbo_active_view c now s hact hstop hnow).1, if_neg (by simp [hsel])]

/-- Witness of C9: turbo on both channels, channel 1 busy and channel 2 idle. -/
theorem turbo_refill_witness :
    ((updateTurbo 1000 turboBoth).motor .two).distanceToGo = 8192
    ∧ (updateTurbo 1000 turboBoth).motor .one = ⟨500⟩
    ∧ (updateTurbo 1000 turboBoth).turboEndMs = 300000 := by
  have h := turbo_refill 1000 turboBoth (by decide) (by decide) (by decide)
  exact ⟨(h.1 .two (by decide) (by decide)).1,
    (h.2.1 .one (by decide) (by decide)).trans (by decide),
    h.2.2.2.2.2.2.2.1.trans (by decide)⟩

/-! ## Debounce -/

theorem debounceRun_append (s : State) (rs : List (Bool × Bool × Nat)) (r : Bool × Bool × Nat) :
    debounceRun s (rs ++ [r]) = updateModeDebounced r.1 r.2.1 r.2.2 (debounceRun s rs) := by
  induction rs generalizing s with
  | nil => rfl
  | cons x xs ih => exact ih (updateModeDebounced x.1 x.2.1 x.2.2 s)

/-- The first reading of a new value resets the candidate and its timestamp. -/
theorem updateModeDebounced_new (a b : Bool) (now : Nat) (s : State)
    (h : s.currentMode ≠ readModeRaw a b) :
    updateModeDebounced a b now s
      = { s with currentMode := readModeRaw a b, lastModeReadMs := now } := by
  unfold updateModeDebounced
  simp only []
  rw [if_pos (fun h' => h h'.symm)]

/-- A repeated reading of the candidate commits it once the window has elapsed. -/
theorem updateModeDebounced_same (a b : Bool) (now : Nat) (s : State)
    (h : s.currentMode = readModeRaw a b) :
    updateModeDebounced a b now s
      = if subUL now s.lastModeReadMs ≥ MODE_DEBOUNCE_MS
        then { s with stableMode := readModeRaw a b } else s := by
  unfold updateModeDebounced
  simp only []
  rw [if_neg (fun h' => h' h.symm)]

/-- While the candidate is read again and again, the candidate and its timestamp
stay, and the stable state either stays or becomes the candidate; it stays when
every reading comes before the window has elapsed. -/
theorem debounceRun_hold (v : Int) (t : Nat) (ht : t < 4294967296)
    (held : List (Bool × Bool × Nat)) :
    ∀ s : State, s.currentMode = v → s.lastModeReadMs = t →
      (∀ r ∈ held, readModeRaw r.1 r.2.1 = v ∧ t ≤ r.2.2 ∧ r.2.2 < 4294967296) →
      (debounceRun s held).currentMode = v
      ∧ (debounceRun s held).lastModeReadMs = t
      ∧ ((∀ r ∈ held, r.2.2 < t + 40) → (debounceRun s held).stableMode = s.stableMode) := by
  induction held with
  | nil => intro s hc hl _; exact ⟨hc, hl, fun _ => rfl⟩
  | cons r rs ih =>
    intro s hc hl hall
    obtain ⟨hv, hge, hlt⟩ := hall r (List.mem_cons_self _ _)
    have hrest : ∀ x ∈ rs, readModeRaw x.1 x.2.1 = v ∧ t ≤ x.2.2 ∧ x.2.2 < 4294967296 :=
      fun x hx => hall x (List.mem_cons_of_mem _ hx)
    have hstep := updateModeDebounced_same r.1 r.2.1 r.2.2 s (hc.trans hv.symm)
    have hsub : subUL r.2.2 s.lastModeReadMs = r.2.2 - t := by
      rw [hl]; unfold subUL; omega
    simp only [debounceRun]
    rw [hstep, hsub]
    by_cases hw : r.2.2 - t ≥ MODE_DEBOUNCE_MS
    · rw [if_pos hw]
      obtain ⟨i1, i2, -⟩ := ih { s with stableMode := readModeRaw r.1 r.2.1 } hc hl hrest
      refine ⟨i1, i2, fun hearly => ?_⟩
      have := hearly r (List.mem_cons_self _ _)
      unfold MODE_DEBOUNCE_MS at hw
      omega
    · rw [if_neg hw]
      obtain ⟨i1, i2, i3⟩ := ih s hc hl hrest
      exact ⟨i1, i2, fun hearly => i3 (fun x hx => hearly x (List.mem_cons_of_mem _ hx))⟩

/-- C10. Debounce window of 40 ms. Over calls of `updateModeDebounced` whose clock
values do not run backwards: let a raw selector value `v` (the reading of the
pins `a`, `b`), different from the stable state, be first read at time `t` (the
candidate before that call is a different value), and let the following calls
`held` all read `v` at times from `t` on. (a) If all of them come before `t + 40`,
the stable state is unchanged after them, and unchanged after a further call,
at any time, that reads a value different from `v`: it has not become `v`.
(b) If a further call reads `v` at a time `>= t + 40`, the stable state is `v`
after that call. -/
theorem debounce_window (s : State) (a b : Bool) (t : Nat)
    (held : List (Bool × Bool × Nat))
    (hstable : s.stableMode ≠ readModeRaw a b)
    (hfirst : s.currentMode ≠ readModeRaw a b)
    (ht : t < 4294967296)
    (hheld : ∀ r ∈ held,
      readModeRaw r.1 r.2.1 = readModeRaw a b ∧ t ≤ r.2.2 ∧ r.2.2 < 4294967296) :
    ((∀ r ∈ held, r.2.2 < t + 40) →
        (debounceRun s ((a, b, t) :: held)).stableMode = s.stableMode
        ∧ (debounceRun s ((a, b, t) :: held)).stableMode ≠ readModeRaw a b
        ∧ ∀ (a2 b2 : Bool) (t2 : Nat), readModeRaw a2 b2 ≠ readModeRaw a b →
            (debounceRun s (((a, b, t) :: held) ++ [(a2, b2, t2)])).stableMode = s.stableMode
            ∧ (debounceRun s (((a, b, t) :: held) ++ [(a2, b2, t2)])).stableMode
                ≠ readModeRaw a b)
    ∧ (∀ (a2 b2 : Bool) (t2 : Nat), readModeRaw a2 b2 = readModeRaw a b →
        t + 40 ≤ t2 → t2 < 4294967296 →
        (debounceRun s (((a, b, t) :: held) ++ [(a2, b2, t2)])).stableMode
          = readModeRaw a b) := by
  have h0 := updateModeDebounced_new a b t s hfirst
  obtain ⟨k1, k2, k3⟩ := debounceRun_hold (readModeRaw a b) t ht held
    { s with currentMode := readModeRaw a b, lastModeReadMs := t } rfl rfl hheld
  have hrun : debounceRun s ((a, b, t) :: held)
      = debounceRun { s with currentMode := readModeRaw a b, lastModeReadMs := t } held := by
    simp only [debounceRun]; rw [h0]
  refine ⟨fun hearly => ?_, fun a2 b2 t2 hv hlate hlt => ?_⟩
  · have hs : (debounceRun s ((a, b, t) :: held)).stableMode = s.stableMode := by
      rw [hrun]; exact k3 hearly
    refine ⟨hs, by rw [hs]; exact hstable, fun a2 b2 t2 hne => ?_⟩
    have hx : (debounceRun s (((a, b, t) :: held) ++ [(a2, b2, t2)])).stableMode
        = s.stableMode := by
      rw [debounceRun_append, hrun,
        updateModeDebounced_new a2 b2 t2 _ (by rw [k1]; exact fun h => hne h.symm)]
      exact k3 hearly
    exact ⟨hx, by rw [hx]; exact hstable⟩
  · rw [debounceRun_append, hrun,
      updateModeDebounced_same a2 b2 t2 _ (by rw [k1]; exact hv.symm), k2]
    have hsub : subUL t2 t ≥ MODE_DEBOUNCE_MS := by
      unfold subUL MODE_DEBOUNCE_MS; omega
    rw [if_pos hsub]
    exact hv

/-- Witness of C10: from the manual position, position 0 is read at `1000` and
held until `1039`; reverting at `1040` leaves the stable state, and reading it
again at `1040` commits it. -/
theorem debounce_window_witness :
    (debounceRun bootState
        [(false, true, 1000), (false, true, 1010), (false, true, 1039),
          (true, true, 1040)]).stableMode = 1
    ∧ (debounceRun bootState
        [(false, true, 1000), (false, true, 1010), (false, true, 1039),
          (false, true, 1040)]).stableMode = 0 := by
  have h := debounce_window bootState false true 1000
    [(false, true, 1010), (false, true, 1039)] (by decide) (by decide) (by decide)
    (by decide)
  exact ⟨((h.1 (by decide)).2.2 true true 1040 (by decide)).1.trans (by decide),
    (h.2 false true 1040 (by decide) (by decide) (by decide)).trans (by decide)⟩


/-! ## Preset overlay -/

theorem updateTurbo_stableMode (now : Nat) (s : State) :
    (updateTurbo now s).stableMode = s.stableMode := by
  unfold updateTurbo
  split_ifs <;> (try simp) <;> (try split_ifs) <;> (try simp)

theorem haltStep_stableMode (e : TickIn) (a : State) :
    (haltStep e a).stableMode = a.stableMode := by
  unfold haltStep service
  split_ifs <;> (try simp) <;> (try split_ifs) <;> (try simp)

theorem applyModePreset_stableMode (mode : Int) (s : State) :
    (applyModePreset mode s).stableMode = s.stableMode := by
  unfold applyModePreset
  split_ifs <;> rfl

theorem modeStep_stableMode (a b : Bool) (now : Nat) (s : State) :
    (modeStep a b now s).stableMode = (updateModeDebounced a b now s).stableMode := by
  unfold modeStep
  simp only []
  split_ifs
  · exact applyModePreset_stableMode _ _
  · rfl

/-- The configuration the overlay step leaves, by the stable state after the
debounce of the same step. -/
theorem modeStep_config (a b : Bool) (now : Nat) (s : State) :
    ((modeStep a b now s).stableMode = 0 →
        (modeStep a b now s).TPD_M1 = 500 ∧ (modeStep a b now s).TPD_M2 = 500
        ∧ (modeStep a b now s).DIRPLAN_M1 = DIR_ALT
        ∧ (modeStep a b now s).DIRPLAN_M2 = DIR_ALT)
    ∧ ((modeStep a b now s).stableMode = 2 →
        (modeStep a b now s).TPD_M1 = 800 ∧ (modeStep a b now s).TPD_M2 = 800
        ∧ (modeStep a b now s).DIRPLAN_M1 = DIR_CW
        ∧ (modeStep a b now s).DIRPLAN_M2 = DIR_CCW)
    ∧ ((modeStep a b now s).stableMode = 1 →
        (modeStep a b now s).TPD_M1 = s.TPD_M1 ∧ (modeStep a b now s).TPD_M2 = s.TPD_M2
        ∧ (modeStep a b now s).DIRPLAN_M1 = s.DIRPLAN_M1
        ∧ (modeStep a b now s).DIRPLAN_M2 = s.DIRPLAN_M2) := by
  have hs := modeStep_stableMode a b now s
  obtain ⟨-, -, t1, p1⟩ := updateModeDebounced_frame .one a b now s
  obtain ⟨-, -, t2, p2⟩ := updateModeDebounced_frame .two a b now s
  simp only [State.tpd, State.plan] at t1 p1 t2 p2
  rw [hs]
  refine ⟨fun h => ?_, fun h => ?_, fun h => ?_⟩
  · unfold modeStep
    simp only []
    rw [if_pos (by rw [h]; decide), h]
    simp [applyModePreset]
  · unfold modeStep
    simp only []
    rw [if_pos (by rw [h]; decide), h]
    simp [applyModePreset]
  · unfold modeStep
    simp only []
    rw [if_neg (by rw [h]; decide)]
    exact ⟨t1, t2, p1, p2⟩

/-- After the overlay step nothing in the tick writes the configuration or the
stable state. -/
theorem loop_config (e : TickIn) (s : State) :
    (loop e s).stableMode
        = (modeStep e.pinA e.pinB e.tMode (handleClient e.req e.tReq s)).stableMode
    ∧ (loop e s).TPD_M1
        = (modeStep e.pinA e.pinB e.tMode (handleClient e.req e.tReq s)).TPD_M1
    ∧ (loop e s).TPD_M2
        = (modeStep e.pinA e.pinB e.tMode (handleClient e.req e.tReq s)).TPD_M2
    ∧ (loop e s).DIRPLAN_M1
        = (modeStep e.pinA e.pinB e.tMode (handleClient e.req e.tReq s)).DIRPLAN_M1
    ∧ (loop e s).DIRPLAN_M2
        = (modeStep e.pinA e.pinB e.tMode (handleClient e.req e.tReq s)).DIRPLAN_M2 := by
  obtain ⟨-, -, a1, b1⟩ := loop_view .one e s
  obtain ⟨-, -, a2, b2⟩ := loop_view .two e s
  obtain ⟨-, -, c1, d1⟩ := service_frame .one e (preTick e s)
  obtain ⟨-, -, c2, d2⟩ := service_frame .two e (preTick e s)
  obtain ⟨-, -, f1, g1, -⟩ := updateTurbo_frame .one e.tTurbo
    (modeStep e.pinA e.pinB e.tMode (handleClient e.req e.tReq s))
  obtain ⟨-, -, f2, g2, -⟩ := updateTurbo_frame .two e.tTurbo
    (modeStep e.pinA e.pinB e.tMode (handleClient e.req e.tReq s))
  have hst : (loop e s).stableMode
      = (modeStep e.pinA e.pinB e.tMode (handleClient e.req e.tReq s)).stableMode := by
    have hp : (preTick e s).stableMode
        = (modeStep e.pinA e.pinB e.tMode (handleClient e.req e.tReq s)).stableMode :=
      updateTurbo_stableMode _ _
    cases hen : (atSchedule e s).enabled
    · rw [loop_disabled e s hen, haltStep_stableMode, hp]
    · rw [loop_enabled e s hen, (schedule_frame e.now (atSchedule e s)).2.2.2.2.2.2.1]
      exact hp
  simp only [State.tpd, State.plan, atSchedule] at a1 b1 a2 b2 c1 d1 c2 d2 f1 g1 f2 g2
  refine ⟨hst, ?_, ?_, ?_, ?_⟩
  · rw [a1, c1]; exact f1
  · rw [a2, c2]; exact f2
  · rw [b1, d1]; exact g1
  · rw [b2, d2]; exact g2

/-- C11. Continuous preset overlay. The stable state of a tick is the one the
debounce of that tick leaves. After every tick whose stable state is a preset
position, both channels' `tpd` and `directionPlan` equal that position's preset
(position 0: `tpd` 500/500, Alternate/Alternate; position 2: `tpd` 800/800,
CW/CCW), whatever values they held before the tick and whatever a `/config`
request served in the same tick wrote. On every tick whose stable state is the
manual position (1), the configuration after the tick is the one the request
handling left: the overlay step leaves `tpd` and `directionPlan` of both channels
unchanged. -/
theorem preset_overlay_continuous (e : TickIn) (s : State) :
    (loop e s).stableMode
        = (updateModeDebounced e.pinA e.pinB e.tMode (handleClient e.req e.tReq s)).stableMode
    ∧ ((loop e s).stableMode = 0 →
        (loop e s).TPD_M1 = 500 ∧ (loop e s).TPD_M2 = 500
        ∧ (loop e s).DIRPLAN_M1 = DIR_ALT ∧ (loop e s).DIRPLAN_M2 = DIR_ALT)
    ∧ ((loop e s).stableMode = 2 →
        (loop e s).TPD_M1 = 800 ∧ (loop e s).TPD_M2 = 800
        ∧ (loop e s).DIRPLAN_M1 = DIR_CW ∧ (loop e s).DIRPLAN_M2 = DIR_CCW)
    ∧ ((loop e s).stableMode = 1 →
        (loop e s).TPD_M1 = (handleClient e.req e.tReq s).TPD_M1
        ∧ (loop e s).TPD_M2 = (handleClient e.req e.tReq s).TPD_M2
        ∧ (loop e s).DIRPLAN_M1 = (handleClient e.req e.tReq s).DIRPLAN_M1
        ∧ (loop e s).DIRPLAN_M2 = (handleClient e.req e.tReq s).DIRPLAN_M2)
    ∧ ((loop e s).stableMode = 1 →
        ∀ a : State, a = handleClient e.req e.tReq s →
          (modeStep e.pinA e.pinB e.tMode a).TPD_M1 = a.TPD_M1
          ∧ (modeStep e.pinA e.pinB e.tMode a).TPD_M2 = a.TPD_M2
          ∧ (modeStep e.pinA e.pinB e.tMode a).DIRPLAN_M1 = a.DIRPLAN_M1
          ∧ (modeStep e.pinA e.pinB e.tMode a).DIRPLAN_M2 = a.DIRPLAN_M2) := by
  obtain ⟨l0, l1, l2, l3, l4⟩ := loop_config e s
  obtain ⟨m0, m2, m1⟩ :=
    modeStep_config e.pinA e.pinB e.tMode (handleClient e.req e.tReq s)
  rw [l1, l2, l3, l4, l0]
  refine ⟨modeStep_stableMode _ _ _ _, m0, m2, m1, fun h a ha => ?_⟩
  rw [ha]
  exact m1 h

/-- Witness of C11: in preset position 0 a `/config` request for `tpd` 777/1000
is overwritten within the tick; in the manual position it is kept. -/
theorem preset_overlay_continuous_witness :
    (loop (presetConfigTick 1000 777) presetState).TPD_M1 = 500
    ∧ (loop (presetConfigTick 1000 777) presetState).TPD_M2 = 500
    ∧ (loop (presetConfigTick 1000 777) presetState).DIRPLAN_M1 = DIR_ALT
    ∧ (loop (manualConfigTick 1000) bootState).TPD_M1 = 1000
    ∧ (loop (manualConfigTick 1000) bootState).DIRPLAN_M2 = -1 := by
  have h := preset_overlay_continuous (presetConfigTick 1000 777) presetState
  have h0 := h.2.1 (by decide)
  have h' := preset_overlay_continuous (manualConfigTick 1000) bootState
  have h1 := h'.2.2.2.1 (by decide)
  exact ⟨h0.1, h0.2.1, h0.2.2.1, h1.1.trans (by decide), h1.2.2.2.trans (by decide)⟩


/-! ## Re-derivation of the due time -/

theorem constrain_range (amt : Int) : 0 ≤ constrain amt 0 1200 ∧ constrain amt 0 1200 ≤ 1200 := by
  unfold constrain
  split_ifs <;> omega

/-- The view of the `/config` handler on a channel. -/
theorem handleConfig_view (c : Channel) (doc : ConfigBody) (now : Nat) (s : State) :
    (handleConfig (some doc) now s).tpd c
        = constrain ((match c with | .one => doc.tpd1 | .two => doc.tpd2).getD (s.tpd c)) 0 1200
    ∧ (handleConfig (some doc) now s).nextDue c
        = (if (handleConfig (some doc) now s).tpd c > 0
           then wrapUL (now + intervalFromTPD ((handleConfig (some doc) now s).tpd c))
           else 0) := by
  cases c <;> exact ⟨rfl, rfl⟩

/-- Counterexample to C12 as stated. In preset position 0 the overlay of a quiet
tick at `1000` sets `tpd` to 500 on channel 1 and leaves the due time `132923`,
not `1000 + 86400000 / 500 = 173800`. And when the same tick serves a `/config`
request with `tpd1 = 0`, the request leaves `tpd = 0` and no due time, the overlay
takes `tpd` from 0 to 500, and the channel ends the tick with no pending due
time. -/
theorem tpd_rederive_counterexample :
    (loop (presetTick 1000) presetState).stableMode = 0
    ∧ (loop (presetTick 1000) presetState).TPD_M1 = 500
    ∧ (loop (presetTick 1000) presetState).nextDue1 = 132923
    ∧ (loop (presetTick 1000) presetState).nextDue1 ≠ 1000 + 86400000 / 500
    ∧ (handleClient (presetConfigTick 1000 0).req 1000 presetState).TPD_M1 = 0
    ∧ (handleClient (presetConfigTick 1000 0).req 1000 presetState).nextDue1 = 0
    ∧ (modeStep false true 1000
        (handleClient (presetConfigTick 1000 0).req 1000 presetState)).TPD_M1 = 500
    ∧ (modeStep false true 1000
        (handleClient (presetConfigTick 1000 0).req 1000 presetState)).nextDue1 = 0
    ∧ (loop (presetConfigTick 1000 0) presetState).TPD_M1 = 500
    ∧ (loop (presetConfigTick 1000 0) presetState).nextDue1 = 0 := by
  decide

/-- C12 (amended). Apply-configuration re-derives the due time. After a `/config`
request with a body, served at time `now`, each channel's new `tpd` lies in
`[0, 1200]` and its
`nextDue` is unscheduled (`0`) if the new `tpd` is `0` and `now + 86_400_000 / tpd`
on the 32-bit clock if the new `tpd` is positive, whatever the old `tpd` and due
time were; so a channel whose `tpd` goes from 0 to a positive value through
apply-configuration ends with that due time, which is pending (`> 0`) when
`now + 86_400_000 / tpd` is below `2^32`. The preset overlay does not re-derive: on
a tick where the overlay step leaves a channel's `tpd` at the value it had, it
leaves the channel's `nextDue` as it was. -/
theorem config_rederives_due (c : Channel) :
    (∀ (doc : ConfigBody) (now : Nat) (s : State),
        0 ≤ (handleConfig (some doc) now s).tpd c
        ∧ (handleConfig (some doc) now s).tpd c ≤ 1200
        ∧ ((handleConfig (some doc) now s).tpd c = 0 →
            (handleConfig (some doc) now s).nextDue c = 0)
        ∧ (0 < (handleConfig (some doc) now s).tpd c →
            (handleConfig (some doc) now s).nextDue c
              = (now + 86400000 / ((handleConfig (some doc) now s).tpd c).toNat) % 4294967296
            ∧ (now + 86400000 / ((handleConfig (some doc) now s).tpd c).toNat < 4294967296 →
                (handleConfig (some doc) now s).nextDue c
                  = now + 86400000 / ((handleConfig (some doc) now s).tpd c).toNat
                ∧ 0 < (handleConfig (some doc) now s).nextDue c))
        ∧ handleClient (Request.config (some doc)) now s = handleConfig (some doc) now s)
    ∧ (∀ (a b : Bool) (now : Nat) (s : State),
        (modeStep a b now s).tpd c = s.tpd c → (modeStep a b now s).nextDue c = s.nextDue c) := by
  refine ⟨fun doc now s => ?_, fun a b now s _ => (modeStep_frame c a b now s).1⟩
  obtain ⟨v1, v2⟩ := handleConfig_view c doc now s
  have hr := constrain_range
    ((match c with | .one => doc.tpd1 | .two => doc.tpd2).getD (s.tpd c))
  rw [← v1] at hr
  refine ⟨hr.1, hr.2, fun h0 => ?_, fun hpos => ?_, rfl⟩
  · rw [v2, if_neg (by omega)]
  · obtain ⟨i1, -⟩ := intervalFromTPD_pos _ (show 1 ≤ (handleConfig (some doc) now s).tpd c by omega)
    have i3 := intervalFromTPD_ge _ (show 1 ≤ (handleConfig (some doc) now s).tpd c by omega) hr.2
    rw [v2, if_pos hpos, i1]
    rw [i1] at i3
    refine ⟨rfl, fun hlt => ?_⟩
    unfold wrapUL
    rw [Nat.mod_eq_of_lt hlt]
    exact ⟨rfl, by omega⟩

/-- Witness of C12: in the manual position a `/config` request at `1000` with
`tpd1 = 1000`, `tpd2 = 0` leaves the due times `87400` and `0`; a quiet tick in
preset position 0 leaves the due time. -/
theorem config_rederives_due_witness :
    (handleClient (manualConfigTick 1000).req 1000 offState).nextDue .one = 87400
    ∧ (handleClient (manualConfigTick 1000).req 1000 offState).nextDue .two = 0
    ∧ (modeStep false true 1000 presetState).nextDue .one = 132923 := by
  have h1 := (config_rederives_due .one).1 ⟨some 1000, some 0, some 1, some (-1)⟩ 1000 offState
  have h2 := (config_rederives_due .two).1 ⟨some 1000, some 0, some 1, some (-1)⟩ 1000 offState
  have h3 := (config_rederives_due .one).2 false true 1000 presetState (by decide)
  exact ⟨((h1.2.2.2.1 (by decide)).2 (by decide)).1.trans (by decide),
    h2.2.2.1 (by decide), h3.trans (by decide)⟩


/-! ## Suspension of the due times -/

theorem handleClient_nextDue (c : Channel) (req : Request) (now : Nat) (s : State)
    (h : req.rederives = false) : (handleClient req now s).nextDue c = s.nextDue c := by
  cases req with
  | idle => rfl
  | start => cases c <;> rfl
  | stop => cases c <;> rfl
  | config body =>
    cases body with
    | none => rfl
    | some doc => exact absurd h (by simp [Request.rederives])
  | turbo body =>
    cases body with
    | none => rfl
    | some doc =>
      simp only [handleClient, handleTurbo]
      exact (startTurbo_frame c _ _ _ now s).1

theorem atSchedule_nextDue (c : Channel) (e : TickIn) (s : State) :
    (atSchedule e s).nextDue c = (handleClient e.req e.tReq s).nextDue c := by
  unfold atSchedule preTick
  simp only []
  rw [(service_frame c e _).1, (updateTurbo_frame c e.tTurbo _).1,
    (modeStep_frame c e.pinA e.pinB e.tMode _).1]

/-- A tick whose scheduling step is skipped or finds turbo active leaves the due
time the request handling left, and `lastDirection`. -/
theorem loop_suspended (c : Channel) (e : TickIn) (s : State)
    (h : (atSchedule e s).enabled = false ∨ (atSchedule e s).turboActive = true) :
    (loop e s).nextDue c = (handleClient e.req e.tReq s).nextDue c
    ∧ (loop e s).lastDir c = s.lastDir c := by
  obtain ⟨v1, v2, -, -⟩ := loop_view c e s
  have hn : ¬ ((atSchedule e s).enabled = true ∧ (atSchedule e s).due e.now c) := by
    rintro ⟨hen, hd⟩
    rcases h with h | h
    · rw [h] at hen; exact Bool.noConfusion hen
    · have := hd.1; rw [h] at this; exact Bool.noConfusion this
  rw [if_neg hn] at v1 v2
  exact ⟨v1.trans (atSchedule_nextDue c e s), v2.trans (atSchedule_lastDir c e s)⟩

theorem runTicks_suspended (c : Channel) (es : List TickIn) :
    ∀ s : State, suspended s es →
      (runTicks s es).nextDue c = s.nextDue c ∧ (runTicks s es).lastDir c = s.lastDir c := by
  induction es with
  | nil => intro s _; exact ⟨rfl, rfl⟩
  | cons e es ih =>
    intro s h
    obtain ⟨hreq, hsus, hrest⟩ := h
    obtain ⟨l1, l2⟩ := loop_suspended c e s hsus
    obtain ⟨i1, i2⟩ := ih (loop e s) hrest
    simp only [runTicks]
    exact ⟨i1.trans (l1.trans (handleClient_nextDue c e.req e.tReq s hreq)), i2.trans l2⟩

/-- C13. Due times are suspended, never cleared. `startTurbo` and `updateTurbo`
leave `nextDue` and `lastDirection` of both channels unchanged; so does every tick
whose scheduling step is skipped (`enabled = false`) or finds turbo active
(Stopping included), whatever the clock values are: after such a tick
`lastDirection` is as before and `nextDue` is what the request handling of the
tick left, which is the old due time unless the tick serves a `/config` request.
Hence over every run of such ticks the due time and `lastDirection` stay, and the
due time the scheduling step of the next tick evaluates is the one the run
started with, however far in the past it is. -/
theorem due_times_suspended (c : Channel) :
    (∀ (m1 m2 : Bool) (minutes now : Nat) (s : State),
        (startTurbo m1 m2 minutes now s).nextDue c = s.nextDue c
        ∧ (startTurbo m1 m2 minutes now s).lastDir c = s.lastDir c)
    ∧ (∀ (now : Nat) (s : State),
        (updateTurbo now s).nextDue c = s.nextDue c
        ∧ (updateTurbo now s).lastDir c = s.lastDir c)
    ∧ (∀ (e : TickIn) (s : State),
        ((atSchedule e s).enabled = false ∨ (atSchedule e s).turboActive = true) →
          (loop e s).lastDir c = s.lastDir c
          ∧ (loop e s).nextDue c = (handleClient e.req e.tReq s).nextDue c
          ∧ (e.req.rederives = false → (loop e s).nextDue c = s.nextDue c))
    ∧ (∀ (s : State) (es : List TickIn), suspended s es →
          (runTicks s es).nextDue c = s.nextDue c
          ∧ (runTicks s es).lastDir c = s.lastDir c
          ∧ ∀ e : TickIn, e.req.rederives = false →
              (atSchedule e (runTicks s es)).nextDue c = s.nextDue c
              ∧ (atSchedule e (runTicks s es)).lastDir c = s.lastDir c) := by
  refine ⟨fun m1 m2 minutes now s => ?_, fun now s => ?_, fun e s h => ?_, fun s es h => ?_⟩
  · obtain ⟨f1, f2, -⟩ := startTurbo_frame c m1 m2 minutes now s
    exact ⟨f1, f2⟩
  · obtain ⟨f1, f2, -⟩ := updateTurbo_frame c now s
    exact ⟨f1, f2⟩
  · obtain ⟨l1, l2⟩ := loop_suspended c e s h
    exact ⟨l2, l1, fun hreq => l1.trans (handleClient_nextDue c e.req e.tReq s hreq)⟩
  · obtain ⟨r1, r2⟩ := runTicks_suspended c es s h
    refine ⟨r1, r2, fun e hreq => ⟨?_, ?_⟩⟩
    · rw [atSchedule_nextDue, handleClient_nextDue c e.req e.tReq _ hreq, r1]
    · rw [atSchedule_lastDir, r2]

/-- Witness of C13: scheduling disabled over two ticks long after the due time
`132923`, then a tick that serves `/start`. -/
theorem due_times_suspended_witness :
    (runTicks stoppedState [quietTick 200000, quietTick 300000]).nextDue .one = 132923
    ∧ (loop (quietTick 200000) stoppedState).lastDir .one = 1
    ∧ (atSchedule { quietTick 300002 with req := Request.start }
        (runTicks stoppedState [quietTick 200000, quietTick 300000])).nextDue .one = 132923
    ∧ (loop (quietTick 132925) turboOnOne).nextDue .two = 132923 := by
  have h := due_times_suspended .one
  have h2 := due_times_suspended .two
  have hr := h.2.2.2 stoppedState [quietTick 200000, quietTick 300000]
    ⟨by decide, by decide, by decide, by decide, trivial⟩
  have ht := h.2.2.1 (quietTick 200000) stoppedState (by decide)
  have hu := h2.2.2.1 (quietTick 132925) turboOnOne (by decide)
  exact ⟨hr.1.trans (by decide), ht.1.trans (by decide),
    (hr.2.2 { quietTick 300002 with req := Request.start } (by decide)).1.trans (by decide),
    (hu.2.2 (by decide)).trans (by decide)⟩


/-! ## Status query -/

/-- The remaining-time field of a channel, as the handler computes it from the
value `r` of its first assignment to `rem`. -/
theorem handleStatus_next (c : Channel) (tNow tTurbo : Nat) (s : State) (r : Int)
    (hr : r = (if s.tpd c > 0 ∧ s.nextDue c > 0
                then wrapLong (toLong (s.nextDue c) - toLong tNow) else -1)) :
    (handleStatus tNow tTurbo s).next_ms c = (if r < 0 ∧ r ≠ -1 then 0 else r) := by
  subst hr
  cases c <;> rfl

/-- The signed difference of two 32-bit clock values that lie less than `2^31`
apart is their difference. -/
theorem wrapLong_diff (a b : Nat)
    (h1 : (a : Int) - b < 2147483648) (h2 : -2147483648 ≤ (a : Int) - b) :
    wrapLong (toLong a - toLong b) = (a : Int) - b := by
  unfold wrapLong toLong
  split_ifs <;> omega

/-- C14 (not met by the code). Status sentinel. The claim is that the
remaining-time field of a channel is `-1` exactly when the channel is unscheduled
and otherwise the non-negative time until the due time, `0` once it has passed.
The code reports `-1` for an unscheduled channel, the time until the due time for
a pending due time up to `2^31` ms ahead, and `0` for a due time that passed
between `2` and `2^31` ms ago; but for a scheduled channel whose due time passed
exactly `1` ms ago it reports `-1`, the sentinel, because the clamp
`if (rem < 0 && rem != -1) rem = 0` spares every `-1`. The reported turbo time
left is `0` whenever turbo is inactive and is never negative. -/
theorem status_remaining_time (c : Channel) (tNow tTurbo : Nat) (s : State) :
    ((s.tpd c ≤ 0 ∨ s.nextDue c = 0) → (handleStatus tNow tTurbo s).next_ms c = -1)
    ∧ (0 < s.tpd c → 0 < s.nextDue c → s.nextDue c < 4294967296 →
        tNow ≤ s.nextDue c → s.nextDue c < tNow + 2147483648 →
        (handleStatus tNow tTurbo s).next_ms c = (s.nextDue c : Int) - tNow
        ∧ 0 ≤ (handleStatus tNow tTurbo s).next_ms c)
    ∧ (0 < s.tpd c → 0 < s.nextDue c → tNow < 4294967296 →
        s.nextDue c + 2 ≤ tNow → tNow ≤ s.nextDue c + 2147483648 →
        (handleStatus tNow tTurbo s).next_ms c = 0)
    ∧ (0 < s.tpd c → 0 < s.nextDue c → tNow < 4294967296 →
        tNow = s.nextDue c + 1 →
        (handleStatus tNow tTurbo s).next_ms c = -1)
    ∧ (s.turboActive = false → (handleStatus tNow tTurbo s).turbo_left_ms = 0)
    ∧ 0 ≤ (handleStatus tNow tTurbo s).turbo_left_ms := by
  refine ⟨fun h => ?_, fun h1 h2 _ h4 h5 => ?_, fun h1 h2 _ h4 h5 => ?_,
    fun h1 h2 _ h4 => ?_, fun h => ?_, ?_⟩
  · rw [handleStatus_next c tNow tTurbo s (-1) (by rw [if_neg (by omega)])]
    decide
  · have hd := wrapLong_diff (s.nextDue c) tNow (by omega) (by omega)
    rw [handleStatus_next c tNow tTurbo s ((s.nextDue c : Int) - tNow)
      (by rw [if_pos ⟨h1, h2⟩, hd]), if_neg (by omega)]
    exact ⟨rfl, by omega⟩
  · have hd := wrapLong_diff (s.nextDue c) tNow (by omega) (by omega)
    rw [handleStatus_next c tNow tTurbo s ((s.nextDue c : Int) - tNow)
      (by rw [if_pos ⟨h1, h2⟩, hd]), if_pos (by omega)]
  · have hd := wrapLong_diff (s.nextDue c) tNow (by omega) (by omega)
    rw [handleStatus_next c tNow tTurbo s ((s.nextDue c : Int) - tNow)
      (by rw [if_pos ⟨h1, h2⟩, hd]), if_neg (by omega)]
    omega
  · simp [handleStatus, h]
  · show 0 ≤ (if (if s.turboActive = true
        then wrapLong (toLong s.turboEndMs - toLong tTurbo) else 0) < 0 then 0
      else (if s.turboActive = true
        then wrapLong (toLong s.turboEndMs - toLong tTurbo) else 0))
    split_ifs <;> omega

/-- Witness of C14: the boot state queried `1` ms after the due time `132923`
reports `next1_ms = -1`, as it does for the switched-off channel; `2` ms after it
reports `0`. -/
theorem status_remaining_time_witness :
    (handleStatus 132924 132924 bootState).next_ms .one = -1
    ∧ (handleStatus 132924 132924 offState).next_ms .one = -1
    ∧ (handleStatus 132925 132925 bootState).next_ms .one = 0
    ∧ (handleStatus 1000 1000 bootState).next_ms .one = 131923
    ∧ (handleStatus 1000 1000 turboOnOne).turbo_left_ms = 299000 := by
  have h1 := status_remaining_time .one 132924 132924 bootState
  have h2 := status_remaining_time .one 132924 132924 offState
  have h3 := status_remaining_time .one 132925 132925 bootState
  have h4 := status_remaining_time .one 1000 1000 bootState
  exact ⟨h1.2.2.2.1 (by decide) (by decide) (by decide) (by decide),
    h2.1 (by decide),
    h3.2.2.1 (by decide) (by decide) (by decide) (by decide) (by decide),
    (h4.2.1 (by decide) (by decide) (by decide) (by decide) (by decide)).1.trans (by decide),
    by decide⟩

end Winder
